import Mathlib

/-!
# chaos-io/docker: container orchestration and demo-image eviction

A shallow embedding of `container.go` (Run, Start, Wait, Remove),
`image_cleaner.go` (demoImageName, ImageCleaner.Clean, imageNeedRemove,
hasValidContainers) and `image.go` (base26Encode, GetImageName).  The container runtime is an explicit state machine:
every client call is a function from the runtime state to a result and a
successor state, and every call that reaches the runtime is recorded in a trace.
-/

namespace Docker

/-! ## Regular expressions: the fragment of Go's `regexp/syntax` used by `demoImageName` -/

/-- Syntax tree of a regular expression over runes; a character class is a
list of inclusive rune ranges, as in Go's `syntax.Regexp`. -/
inductive Regexp where
  | noMatch : Regexp
  | emptyMatch : Regexp
  | charClass (ranges : List (Char × Char)) : Regexp
  | concat (a b : Regexp) : Regexp
  | alternate (a b : Regexp) : Regexp
  | star (a : Regexp) : Regexp

namespace Regexp

/-- One or more repetitions, `a+`. -/
def plus (a : Regexp) : Regexp := concat a (star a)

/-- Zero or one occurrence, `a?`. -/
def quest (a : Regexp) : Regexp := alternate a emptyMatch

/-- A single literal rune. -/
def rune (c : Char) : Regexp := charClass [(c, c)]

/-- A literal run of runes. -/
def literal : List Char → Regexp
  | [] => emptyMatch
  | c :: cs => concat (rune c) (literal cs)

/-- Membership of a rune in a list of inclusive ranges. -/
def inRanges (ranges : List (Char × Char)) (c : Char) : Bool :=
  ranges.any fun r => decide (r.1 ≤ c) && decide (c ≤ r.2)

/-- The strings a regular expression denotes. -/
inductive Matches : Regexp → List Char → Prop where
  | emptyMatch : Matches Regexp.emptyMatch []
  | charClass {ranges : List (Char × Char)} {c : Char} :
      inRanges ranges c = true → Matches (Regexp.charClass ranges) [c]
  | concat {a b : Regexp} {x y : List Char} :
      Matches a x → Matches b y → Matches (Regexp.concat a b) (x ++ y)
  | left {a b : Regexp} {x : List Char} : Matches a x → Matches (Regexp.alternate a b) x
  | right {a b : Regexp} {x : List Char} : Matches b x → Matches (Regexp.alternate a b) x
  | starNil {a : Regexp} : Matches (Regexp.star a) []
  | starCons {a : Regexp} {x y : List Char} :
      Matches a x → Matches (Regexp.star a) y → Matches (Regexp.star a) (x ++ y)

/-- Whether the expression accepts the empty string. -/
def nullable : Regexp → Bool
  | noMatch => false
  | emptyMatch => true
  | charClass _ => false
  | concat a b => nullable a && nullable b
  | alternate a b => nullable a || nullable b
  | star _ => true

/-- Brzozowski derivative of the expression by one rune. -/
def deriv (c : Char) : Regexp → Regexp
  | noMatch => noMatch
  | emptyMatch => noMatch
  | charClass ranges => if inRanges ranges c then emptyMatch else noMatch
  | concat a b =>
      if nullable a then alternate (concat (deriv c a) b) (deriv c b)
      else concat (deriv c a) b
  | alternate a b => alternate (deriv c a) (deriv c b)
  | star a => concat (deriv c a) (star a)

/-- Anchored match at the start of the input: some prefix of `s` is matched. -/
def matchPrefix (r : Regexp) : List Char → Bool
  | [] => nullable r
  | c :: cs => nullable r || matchPrefix (deriv c r) cs

/-- Unanchored search: some substring of `s` is matched. -/
def search (r : Regexp) : List Char → Bool
  | [] => nullable r
  | c :: cs => matchPrefix r (c :: cs) || search r cs

/-- Go's `(*Regexp).MatchString`: reports whether the string contains any match. -/
def MatchString (r : Regexp) (s : String) : Bool := search r s.toList

end Regexp

/-- The class `[\w\-]`: ASCII word characters and the hyphen. -/
def wordHyphenClass : List (Char × Char) :=
  [('0', '9'), ('A', 'Z'), ('_', '_'), ('a', 'z'), ('-', '-')]

/-- The class `[a-z\d]`: lowercase ASCII letters and digits. -/
def lowerDigitClass : List (Char × Char) :=
  [('a', 'z'), ('0', '9')]

/-- Source: `regexp.MustCompile("demo-([\w\-]+)?\.([a-z\d]+)?")`. -/
def demoImageName : Regexp :=
  Regexp.concat (Regexp.literal "demo-".toList)
    (Regexp.concat (Regexp.quest (Regexp.plus (Regexp.charClass wordHyphenClass)))
      (Regexp.concat (Regexp.rune '.')
        (Regexp.quest (Regexp.plus (Regexp.charClass lowerDigitClass)))))

/-! ## Values exchanged with the runtime -/

/-- Error values, identified by their message. -/
abbrev Err := String

/-- Raw bytes of a log stream. -/
abbrev Bytes := List Nat

/-- A dynamically typed option value (`interface{}`), by the dynamic types the code asserts. -/
inductive Value where
  | int (n : Int) : Value
  | str (s : String) : Value
  | strs (l : List String) : Value
  | other : Value
deriving DecidableEq, Repr

/-- The option bag `core.Options`, a map from option name to value. -/
abbrev Options := String → Option Value

def OptionWorkingDir : String := "workingDir"
def OptionEnv : String := "env"
def OptionCpuSet : String := "cpuset"
def OptionPorts : String := "ports"
def OptionMemoryLimit : String := "memory"
def OptionAddHost : String := "add-host"
def OptionNetwork : String := "network"

/-- A bind mount (`mount.Mount`); `Type_` is the mount type, `"bind"` for `mount.TypeBind`. -/
structure Mount where
  Type_ : String
  Source : String
  Target : String
deriving DecidableEq, Repr

/-- The fields of `container.Config` that Run and Start set. -/
structure Config where
  Image : String
  Cmd : List String
  Env : List String
  Tty : Bool
  WorkingDir : String
  ExposedPorts : List String
deriving DecidableEq, Repr

/-- The fields of `container.HostConfig` that Run and Start set. -/
structure HostConfig where
  Mounts : List Mount
  AutoRemove : Bool
  ExtraHosts : List String
  NetworkMode : String
  CpusetCpus : String
  Memory : Int
  MemorySwap : Int
  PortBindings : List (String × String)
deriving DecidableEq, Repr

/-- The record `container.WaitResponse` delivered on the result channel. -/
structure WaitResponse where
  Error : Option String
  StatusCode : Int
deriving DecidableEq, Repr

/-- An entry of the image listing (`types.ImageSummary`). -/
structure ImageSummary where
  ID : String
  RepoTags : List String
  Created : Int
deriving DecidableEq, Repr

/-- An entry of the container listing (`types.Container`). -/
structure Container where
  ID : String
  ImageID : String
  State : String
  Created : Int
deriving DecidableEq, Repr

/-- Outcome of the two-armed `select` over the error and result channels;
`never` stands for a wait on which neither channel ever yields. -/
inductive Select2 where
  | errC (err : Option Err) : Select2
  | statusC (response : WaitResponse) : Select2
  | never : Select2
deriving DecidableEq, Repr

/-- Outcome of the three-armed `select` over the error channel, the result
channel and the timeout timer. -/
inductive Select3 where
  | errC (err : Option Err) : Select3
  | statusC (response : WaitResponse) : Select3
  | timerC : Select3
deriving DecidableEq, Repr

/-- One interaction with the runtime, with its observed outcome. -/
inductive Event where
  | newClient (ok : Bool) : Event
  | close : Event
  | containerCreate (cfg : Config) (host : HostConfig) (name : String) (ok : Bool) : Event
  | containerStart (id : String) (ok : Bool) : Event
  | containerWait (id : String) : Event
  | select2 (arm : Select2) : Event
  | select3 (timer : Int) (arm : Select3) : Event
  | containerLogs (id : String) (tail : String) (raw : Option Bytes) : Event
  | containerStop (id : String) (timeout : Int) (ok : Bool) : Event
  | containerRemove (id : String) (force : Bool) (ok : Bool) : Event
  | containerList (all : Bool) (result : Option (List Container)) : Event
  | imageList (all : Bool) (ok : Bool) : Event
  | imageRemove (id : String) (force pruneChildren : Bool) (ok : Bool) : Event
  | goWait (id : String) : Event
deriving DecidableEq, Repr

/-- The runtime client and the process clock as a state machine over `σ`:
each capability maps the current state to its result and the next state. -/
structure Runtime (σ : Type) where
  newClient : σ → Option Err × σ
  close : σ → σ
  containerCreate : Config → HostConfig → String → σ → Except Err String × σ
  containerStart : String → σ → Option Err × σ
  containerWait : String → σ → σ
  select2 : σ → Select2 × σ
  select3 : Int → σ → Select3 × σ
  containerLogs : String → String → σ → Except Err (Except Err Bytes) × σ
  containerStop : String → Int → σ → Option Err × σ
  containerRemove : String → Bool → σ → Option Err × σ
  containerList : Bool → σ → Except Err (List Container) × σ
  imageList : Bool → σ → Except Err (List ImageSummary) × σ
  imageRemove : String → Bool → Bool → σ → Option Err × σ
  now : σ → Int × σ

/-- Library functions the code calls and that are taken as given:
`nat.ParsePortSpecs`, `units.FromHumanSize` and `stripansi.Strip`. -/
structure Lib where
  parsePortSpecs : List String → List String × List (String × String)
  fromHumanSize : String → Except Err Int
  strip : Bytes → Bytes

/-- Result of running an action: its value, the runtime interactions it
performed in order, and the state it leaves. -/
structure Step (σ α : Type) where
  val : α
  events : List Event
  state : σ

/-- A computation against the runtime. -/
structure Act (σ α : Type) where
  run : σ → Step σ α

namespace Act

variable {σ α β : Type}

def pure (a : α) : Act σ α := ⟨fun s => ⟨a, [], s⟩⟩

def bind (m : Act σ α) (f : α → Act σ β) : Act σ β := ⟨fun s =>
  let r := m.run s
  let q := (f r.val).run r.state
  ⟨q.val, r.events ++ q.events, q.state⟩⟩

instance : Monad (Act σ) where
  pure := Act.pure
  bind := Act.bind

end Act

section Calls

variable {σ : Type}

def newClient (rt : Runtime σ) : Act σ (Option Err) := ⟨fun s =>
  let r := rt.newClient s
  ⟨r.1, [Event.newClient r.1.isNone], r.2⟩⟩

def close (rt : Runtime σ) : Act σ Unit := ⟨fun s =>
  ⟨(), [Event.close], rt.close s⟩⟩

def containerCreate (rt : Runtime σ) (cfg : Config) (host : HostConfig) (name : String) :
    Act σ (Except Err String) := ⟨fun s =>
  let r := rt.containerCreate cfg host name s
  ⟨r.1, [Event.containerCreate cfg host name r.1.toBool], r.2⟩⟩

def containerStart (rt : Runtime σ) (id : String) : Act σ (Option Err) := ⟨fun s =>
  let r := rt.containerStart id s
  ⟨r.1, [Event.containerStart id r.1.isNone], r.2⟩⟩

def containerWait (rt : Runtime σ) (id : String) : Act σ Unit := ⟨fun s =>
  ⟨(), [Event.containerWait id], rt.containerWait id s⟩⟩

def select2 (rt : Runtime σ) : Act σ Select2 := ⟨fun s =>
  let r := rt.select2 s
  ⟨r.1, [Event.select2 r.1], r.2⟩⟩

def select3 (rt : Runtime σ) (timer : Int) : Act σ Select3 := ⟨fun s =>
  let r := rt.select3 timer s
  ⟨r.1, [Event.select3 timer r.1], r.2⟩⟩

def containerStop (rt : Runtime σ) (id : String) (timeout : Int) : Act σ (Option Err) := ⟨fun s =>
  let r := rt.containerStop id timeout s
  ⟨r.1, [Event.containerStop id timeout r.1.isNone], r.2⟩⟩

def containerRemove (rt : Runtime σ) (id : String) (force : Bool) : Act σ (Option Err) := ⟨fun s =>
  let r := rt.containerRemove id force s
  ⟨r.1, [Event.containerRemove id force r.1.isNone], r.2⟩⟩

def containerList (rt : Runtime σ) (all : Bool) : Act σ (Except Err (List Container)) := ⟨fun s =>
  let r := rt.containerList all s
  ⟨r.1, [Event.containerList all r.1.toOption], r.2⟩⟩

def imageList (rt : Runtime σ) (all : Bool) : Act σ (Except Err (List ImageSummary)) := ⟨fun s =>
  let r := rt.imageList all s
  ⟨r.1, [Event.imageList all r.1.toBool], r.2⟩⟩

def imageRemove (rt : Runtime σ) (id : String) (force pruneChildren : Bool) :
    Act σ (Option Err) := ⟨fun s =>
  let r := rt.imageRemove id force pruneChildren s
  ⟨r.1, [Event.imageRemove id force pruneChildren r.1.isNone], r.2⟩⟩

/-- The request `c.ContainerLogs` followed by `io.ReadAll` of the stream; the
event records the bytes read when both succeed. -/
def clientContainerLogs (rt : Runtime σ) (id tail : String) :
    Act σ (Except Err (Except Err Bytes)) := ⟨fun s =>
  let r := rt.containerLogs id tail s
  ⟨r.1, [Event.containerLogs id tail (match r.1 with
    | .ok (.ok byt) => some byt
    | _ => none)], r.2⟩⟩

/-- Reading the clock (`time.Now()`), in nanoseconds since the epoch; not a runtime request. -/
def now (rt : Runtime σ) : Act σ Int := ⟨fun s =>
  let r := rt.now s
  ⟨r.1, [], r.2⟩⟩

/-- Spawning the detached watcher, `go Wait(...)`; its execution is not part of the caller. -/
def goWait (id : String) : Act σ Unit := ⟨fun s => ⟨(), [Event.goWait id], s⟩⟩

end Calls

/-! ## Time -/

def minDuration : Int := -(2 ^ 63)
def maxDuration : Int := 2 ^ 63 - 1

/-- Conversion to `int64` by wrap-around. -/
def wrap64 (n : Int) : Int := (n + 2 ^ 63) % 2 ^ 64 - 2 ^ 63

/-- The wall-clock reading of a `time.Time`: the values of its methods `sec()`
(seconds since January 1, year 1, an `int64`) and `nsec()` (nanoseconds within
the second).  The monotonic reading is left out: it takes part in `Sub`,
`Equal` and `Before` only when both operands carry one, and an instant made by
`time.Unix` carries none. -/
structure Time where
  sec : Int
  nsec : Int
deriving DecidableEq, Repr

/-- The constant `unixToInternal` of package time: the seconds from January 1,
year 1 to the Unix epoch. -/
def unixToInternal : Int := 62135596800

/-- The instant `time.Unix(sec, 0)`: `unixTime` stores `sec + unixToInternal`
in an `int64`, which wraps around. -/
def timeUnix (sec : Int) : Time := { sec := wrap64 (sec + unixToInternal), nsec := 0 }

/-- The instant `time.Now()` when the system clock reads `ns` nanoseconds since
the Unix epoch: its seconds are offset by `unixToInternal` in `int64` arithmetic. -/
def timeNow (ns : Int) : Time :=
  { sec := wrap64 (ns / 1000000000 + unixToInternal), nsec := ns % 1000000000 }

/-- The method `addSec` of `time.Time` on an instant without monotonic
reading: the sum of the seconds, saturating when it overflows. -/
def Time.addSec (ext d : Int) : Int :=
  if decide (wrap64 (ext + d) > ext) = decide (d > 0) then wrap64 (ext + d)
  else if d > 0 then 2 ^ 63 - 1
  else -(2 ^ 63 - 1)

/-- The method `Add` of `time.Time` on an instant without monotonic reading;
`d / 1e9` and `d % 1e9` truncate toward zero as Go's operators do. -/
def Time.Add (t : Time) (d : Int) : Time :=
  let dsec := Int.tdiv d 1000000000
  let nsec := t.nsec + Int.tmod d 1000000000
  if nsec ≥ 1000000000 then { sec := Time.addSec t.sec (dsec + 1), nsec := nsec - 1000000000 }
  else if nsec < 0 then { sec := Time.addSec t.sec (dsec - 1), nsec := nsec + 1000000000 }
  else { sec := Time.addSec t.sec dsec, nsec := nsec }

/-- The method `Equal` of `time.Time`, on wall-clock readings. -/
def Time.Equal (t u : Time) : Bool := decide (t.sec = u.sec) && decide (t.nsec = u.nsec)

/-- The method `Before` of `time.Time`, on wall-clock readings. -/
def Time.Before (t u : Time) : Bool :=
  decide (t.sec < u.sec) || (decide (t.sec = u.sec) && decide (t.nsec < u.nsec))

/-- The method `Sub` of `time.Time` when `u` carries no monotonic reading:
the difference is computed in wrapping `int64` arithmetic and checked by adding
it back; when the check fails the result is the minimal or maximal duration. -/
def Time.Sub (t u : Time) : Int :=
  let d := wrap64 (wrap64 (wrap64 (t.sec - u.sec) * 1000000000) + (t.nsec - u.nsec))
  if (u.Add d).Equal t then d
  else if t.Before u then minDuration
  else maxDuration

/-- The duration `time.Since(start)` between two instants taken by `time.Now()`,
both carrying the monotonic clock: the difference of the readings, saturating
at the bounds of `time.Duration`. -/
def timeSub (t u : Int) : Int :=
  if t - u < minDuration then minDuration
  else if t - u > maxDuration then maxDuration
  else t - u

/-! ## container.go -/

/-- How a call ends: it returns, it blocks forever on a `select` whose
channels never yield, or it panics on an index out of range. -/
inductive Outcome (α : Type) where
  | returned (a : α) : Outcome α
  | blocked : Outcome α
  | panicked : Outcome α
deriving DecidableEq, Repr

/-- The mount loop of Run (lines 93-102) and Start (lines 257-265):
`for i := 0; i < len(bindPaths)-1; i += 2 { mounts = append(mounts, ...) }`,
entered at index `i` with the mounts appended so far.  The bound
`len(bindPaths)-1` is computed in signed arithmetic; `none` is an index read
out of range. -/
def bindMountsFrom (bindPaths : List String) (i : Nat) (mounts : List Mount) :
    Option (List Mount) :=
  if (i : Int) < (bindPaths.length : Int) - 1 then
    match bindPaths[i]?, bindPaths[i + 1]? with
    | some src, some tgt =>
        bindMountsFrom bindPaths (i + 2)
          (mounts ++ [{ Type_ := "bind", Source := src, Target := tgt }])
    | _, _ => none
  else some mounts
termination_by bindPaths.length - i
decreasing_by omega

/-- The mount list built from the variadic `bindPaths`, starting from the nil slice at `i = 0`. -/
def bindMounts (bindPaths : List String) : Option (List Mount) :=
  bindMountsFrom bindPaths 0 []

section Container

variable {σ : Type}

/-- Source: `containerLogs(c, id, options)` with `ShowStdout: true` and the
given `Tail`: request the stream, read it to the end, strip ANSI sequences. -/
def containerLogs (rt : Runtime σ) (lib : Lib) (id tail : String) : Act σ (Except Err Bytes) := do
  let r ← clientContainerLogs rt id tail
  match r with
  | .error err => pure (.error err)
  | .ok (.error err) => pure (.error err)
  | .ok (.ok byt) => pure (.ok (lib.strip byt))

/-- The value returned by Run: exit code, output (`none` is the nil slice), error. -/
abbrev RunResult := Int × Option Bytes × Option Err

/-- Run, lines 168-189: log retrieval, stop, removal and the final return,
entered with the exit code left by the wait. -/
def Run.collect (rt : Runtime σ) (lib : Lib) (id : String) (exitCode : Int) : Act σ RunResult := do
  let r ← containerLogs rt lib id ""
  match r with
  | .error err => pure (0, none, some err)
  | .ok out =>
    let _ ← now rt
    let stopErr ← containerStop rt id 2
    match stopErr with
    | some _ => pure (0, some out, none)
    | none =>
      let _ ← now rt
      let _ ← containerRemove rt id true
      let _ ← now rt
      pure (exitCode, some out, none)

/-- Run, lines 137-166: the wait, bounded by the `timeout` option when it is a
positive `int`, followed by `Run.collect`. -/
def Run.wait (rt : Runtime σ) (lib : Lib) (id : String) (options : Options) :
    Act σ (Outcome RunResult) := do
  let timeout : Int := match options "timeout" with
    | some (.int n) => n
    | _ => 0
  if timeout > 0 then
    let arm ← select3 rt (wrap64 (timeout * 1000000000))
    match arm with
    | .errC (some err) => pure (.returned (0, none, some err))
    | .errC none => do
      let r ← Run.collect rt lib id (-1)
      pure (.returned r)
    | .statusC status => do
      let r ← Run.collect rt lib id status.StatusCode
      pure (.returned r)
    | .timerC => do
      let r ← Run.collect rt lib id (-1)
      pure (.returned r)
  else
    let arm ← select2 rt
    match arm with
    | .never => pure .blocked
    | .errC err => do
      let _ ← now rt
      match err with
      | some e => pure (.returned (0, none, some e))
      | none =>
        let r ← Run.collect rt lib id (-1)
        pure (.returned r)
    | .statusC status => do
      let _ ← now rt
      let r ← Run.collect rt lib id status.StatusCode
      pure (.returned r)

/-- The type assertion `options[key].([]string)`: the asserted value, or the
nil slice when the key is absent or holds another type. -/
def Options.strings (options : Options) (key : String) : List String :=
  match options key with
  | some (.strs l) => l
  | _ => []

/-- The type assertion `options[key].(string)`; `none` when the key is absent
or holds another type. -/
def Options.string (options : Options) (key : String) : Option String :=
  match options key with
  | some (.str v) => some v
  | _ => none

/-- The `container.Config` built by Run (lines 86-91 and 111-115). -/
def Run.cfg (lib : Lib) (imageName : String) (cmd : List String) (options : Options) : Config :=
  let env := options.strings OptionEnv
  let ports := options.strings OptionPorts
  let parsed := lib.parsePortSpecs ports
  { Image := imageName, Cmd := cmd, Env := env, Tty := true, WorkingDir := "",
    ExposedPorts := if parsed.2.length > 0 then parsed.1 else [] }

/-- The `container.HostConfig` built by Run (lines 104-115) around the mount list. -/
def Run.hostConfig (lib : Lib) (options : Options) (mounts : List Mount) : HostConfig :=
  let cpuset := (options.string OptionCpuSet).getD ""
  let ports := options.strings OptionPorts
  let parsed := lib.parsePortSpecs ports
  { Mounts := mounts, AutoRemove := false, ExtraHosts := [], NetworkMode := "",
    CpusetCpus := cpuset, Memory := 0, MemorySwap := 0,
    PortBindings := if parsed.2.length > 0 then parsed.2 else [] }

/-- Source: `Run(ctx, imageName, containerName, cmd, options, bindPaths...)`.
The client opened at entry is closed on every exit after it was obtained
(`defer c.Close()`); logging is left out. -/
def Run (rt : Runtime σ) (lib : Lib) (imageName containerName : String) (cmd : List String)
    (options : Options) (bindPaths : List String) : Act σ (Outcome RunResult) := do
  let e ← newClient rt
  match e with
  | some err => pure (.returned (0, none, some err))
  | none =>
    match bindMounts bindPaths with
    | none => do
      close rt
      pure .panicked
    | some mounts =>
      let resp ← containerCreate rt (Run.cfg lib imageName cmd options)
        (Run.hostConfig lib options mounts) containerName
      match resp with
      | .error err => do
        close rt
        pure (.returned (0, none, some err))
      | .ok id =>
        let _ ← now rt
        let startErr ← containerStart rt id
        match startErr with
        | some err => do
          close rt
          pure (.returned (0, none, some err))
        | none =>
          containerWait rt id
          let _ ← now rt
          let r ← Run.wait rt lib id options
          match r with
          | .blocked => pure .blocked
          | _ => do
            close rt
            pure r

/-- The `container.Config` built by Start (lines 234-240 and 286-290). -/
def Start.cfg (lib : Lib) (imageName : String) (cmd : List String) (options : Options) : Config :=
  let env := options.strings OptionEnv
  let ports := options.strings OptionPorts
  let workingDir := (options.string OptionWorkingDir).getD ""
  let parsed := lib.parsePortSpecs ports
  { Image := imageName, Cmd := cmd, Env := env, Tty := true, WorkingDir := workingDir,
    ExposedPorts := if parsed.2.length > 0 then parsed.1 else [] }

/-- The `container.HostConfig` built by Start (lines 242-290) around the mount list. -/
def Start.hostConfig (lib : Lib) (autoRemove : Bool) (options : Options) (mounts : List Mount) :
    HostConfig :=
  let cpuset := (options.string OptionCpuSet).getD ""
  let ports := options.strings OptionPorts
  let addHost : List String := match options.string OptionAddHost with
    | some v =>
        if v.length > 0 then "host.docker.internal:host-gateway" :: v.splitOn ","
        else ["host.docker.internal:host-gateway"]
    | none => ["host.docker.internal:host-gateway"]
  let network : String := match options.string OptionNetwork with
    | some nw => if nw.length > 0 then nw else ""
    | none => ""
  let memory : Option Int := match options.string OptionMemoryLimit with
    | some memoryLimit =>
        match lib.fromHumanSize memoryLimit with
        | .ok ml => some ml
        | .error _ => none
    | none => none
  let parsed := lib.parsePortSpecs ports
  { Mounts := mounts, AutoRemove := autoRemove, ExtraHosts := addHost,
    NetworkMode := network, CpusetCpus := cpuset,
    Memory := memory.getD 0, MemorySwap := if memory.isSome then -1 else 0,
    PortBindings := if parsed.2.length > 0 then parsed.2 else [] }

/-- Source: `Start(ctx, imageName, containerName, autoRemove, cmd, options, bindPaths...)`.
The watcher `go Wait(...)` is recorded as spawned; logging is left out. -/
def Start (rt : Runtime σ) (lib : Lib) (imageName containerName : String) (autoRemove : Bool)
    (cmd : List String) (options : Options) (bindPaths : List String) :
    Act σ (Outcome (String × Option Err)) := do
  let e ← newClient rt
  match e with
  | some err => pure (.returned ("", some err))
  | none =>
    match bindMounts bindPaths with
    | none => do
      close rt
      pure .panicked
    | some mounts =>
      let _ ← now rt
      let resp ← containerCreate rt (Start.cfg lib imageName cmd options)
        (Start.hostConfig lib autoRemove options mounts) containerName
      match resp with
      | .error err => do
        close rt
        pure (.returned ("", some err))
      | .ok id =>
        let startErr ← containerStart rt id
        match startErr with
        | some err => do
          close rt
          pure (.returned ("", some err))
        | none =>
          goWait id
          let _ ← now rt
          close rt
          pure (.returned (id, none))

/-- Source: `Wait(ctx, id, callback)`, on the package-level client `cli`.
The callback is a transformer of the observer's state `κ`, applied to the exit
code, the error and the elapsed time; `none` is the nil callback. -/
def Wait {κ : Type} (rt : Runtime σ) (id : String)
    (callback : Option (Int → Option Err → Int → κ → κ)) (k : κ) : Act σ (Outcome κ) :=
  match callback with
  | none => pure (.returned k)
  | some cb => do
    let start ← now rt
    containerWait rt id
    let arm ← select2 rt
    match arm with
    | .never => pure .blocked
    | .statusC response =>
      let t ← now rt
      pure (.returned (cb response.StatusCode response.Error (timeSub t start) k))
    | .errC err =>
      let t ← now rt
      pure (.returned (cb 0 err (timeSub t start) k))

/-- Source: `Remove(id)`; `len(id) == 0` holds exactly for the empty string. -/
def Remove (rt : Runtime σ) (id : String) : Act σ (Option Err) :=
  if id = "" then pure none
  else do
    let e ← newClient rt
    match e with
    | some err => pure (some err)
    | none =>
      let _ ← now rt
      let err ← containerRemove rt id true
      match err with
      | some x => do
        close rt
        pure (some x)
      | none =>
        let _ ← now rt
        close rt
        pure none

end Container

/-! ## image_cleaner.go -/

/-- The configuration fields of `ImageCleaner`; `InvalidDuration` is in
nanoseconds.  The `Client` field is the connection `Clean` opens. -/
structure ImageCleaner where
  InvalidDuration : Int
  ForceRemoveContainer : Bool
deriving DecidableEq, Repr

/-- Source: `NewImageCleaner(invalidDuration)`. -/
def NewImageCleaner (invalidDuration : Int) : ImageCleaner :=
  { InvalidDuration := invalidDuration, ForceRemoveContainer := true }

section Cleaner

variable {σ : Type}

/-- The first loop of `hasValidContainers` (lines 76-91) over the remaining
containers, with the ids queued so far; `none` is the `return true` inside the loop. -/
def hasValidContainers.scan (rt : Runtime σ) (i : ImageCleaner) (imageId : String) :
    List Container → List String → Act σ (Option (List String))
  | [], removingContainers => pure (some removingContainers)
  | container :: rest, removingContainers =>
    if container.ImageID ≠ imageId then
      hasValidContainers.scan rt i imageId rest removingContainers
    else if container.State = "running" then pure none
    else do
      let t ← now rt
      if Time.Sub (timeNow t) (timeUnix container.Created) > i.InvalidDuration then
        hasValidContainers.scan rt i imageId rest (removingContainers ++ [container.ID])
      else pure none

/-- The second loop of `hasValidContainers` (lines 95-100) over the remaining
queued ids, with the current value of `allRemoved`. -/
def hasValidContainers.removeAll (rt : Runtime σ) : List String → Bool → Act σ Bool
  | [], allRemoved => pure allRemoved
  | id :: rest, allRemoved => do
    let err ← Remove rt id
    match err with
    | some _ => hasValidContainers.removeAll rt rest false
    | none => hasValidContainers.removeAll rt rest allRemoved

/-- Source: `(*ImageCleaner).hasValidContainers(imageId)`. -/
def hasValidContainers (rt : Runtime σ) (i : ImageCleaner) (imageId : String) : Act σ Bool := do
  let r ← containerList rt true
  match r with
  | .error _ => pure true
  | .ok containers =>
    let queued ← hasValidContainers.scan rt i imageId containers []
    match queued with
    | none => pure true
    | some removingContainers =>
      if i.ForceRemoveContainer then do
        let allRemoved ← hasValidContainers.removeAll rt removingContainers true
        if !allRemoved then pure true else pure false
      else pure false

/-- Source: `(*ImageCleaner).imageNeedRemove(imageId, created)`. -/
def imageNeedRemove (rt : Runtime σ) (i : ImageCleaner) (imageId : String) (created : Time) :
    Act σ Bool := do
  let t ← now rt
  if Time.Sub (timeNow t) created < i.InvalidDuration then pure false
  else do
    let valid ← hasValidContainers rt i imageId
    pure (!valid)

/-- The body of the loop of `Clean` (lines 43-54) for one image of the listing. -/
def Clean.image (rt : Runtime σ) (i : ImageCleaner) (image : ImageSummary) : Act σ Unit :=
  match image.RepoTags with
  | [tag] =>
    if Regexp.MatchString demoImageName tag then do
      let need ← imageNeedRemove rt i image.ID (timeUnix image.Created)
      if need then do
        let _ ← imageRemove rt image.ID true true
        pure ()
      else pure ()
    else pure ()
  | _ => pure ()

/-- The loop of `Clean` over the image listing. -/
def Clean.images (rt : Runtime σ) (i : ImageCleaner) : List ImageSummary → Act σ Unit
  | [] => pure ()
  | image :: rest => do
    Clean.image rt i image
    Clean.images rt i rest

/-- Source: `(*ImageCleaner).Clean()`; `none` is the nil error. -/
def Clean (rt : Runtime σ) (i : ImageCleaner) : Act σ (Option Err) := do
  let e ← newClient rt
  match e with
  | some err => pure (some ("failed to connect docker, " ++ err))
  | none =>
    let r ← imageList rt true
    match r with
    | .error err => do
      close rt
      pure (some ("failed to list the docker images, " ++ err))
    | .ok images =>
      Clean.images rt i images
      close rt
      pure none

end Cleaner

/-! ## Specification-side notions -/

/-- The pairing the specification describes for the bind mount list:
consecutive (source, target) pairs, a trailing unpaired entry dropped. -/
def pairMounts : List String → List Mount
  | src :: tgt :: rest => { Type_ := "bind", Source := src, Target := tgt } :: pairMounts rest
  | _ => []

/-- A word or hyphen character: an ASCII letter, a digit, `_` or `-`. -/
def isWordOrHyphen (c : Char) : Bool := c.isAlphanum || c == '_' || c == '-'

/-- A lowercase ASCII letter or a digit. -/
def isLowerOrDigit (c : Char) : Bool := c.isLower || c.isDigit

/-- The pattern the specification names: `demo-<slug>.<hash>` with a
non-empty slug of word/hyphen characters and a non-empty lowercase
alphanumeric hash. -/
def demoPatternSpec : Regexp :=
  Regexp.concat (Regexp.literal "demo-".toList)
    (Regexp.concat (Regexp.plus (Regexp.charClass wordHyphenClass))
      (Regexp.concat (Regexp.rune '.') (Regexp.plus (Regexp.charClass lowerDigitClass))))

/-- The pattern `demo-[\w\-]*\.`: `demo-`, a possibly empty run of word/hyphen
characters, and a dot. -/
def demoPrefixPattern : Regexp :=
  Regexp.concat (Regexp.literal "demo-".toList)
    (Regexp.concat (Regexp.star (Regexp.charClass wordHyphenClass)) (Regexp.rune '.'))

section Clock

variable {σ : Type}

/-- The next `n` consecutive clock readings from state `s`. -/
def clockReadings (rt : Runtime σ) : Nat → σ → List Int
  | 0, _ => []
  | n + 1, s => (rt.now s).1 :: clockReadings rt n (rt.now s).2

/-- The state after `n` consecutive clock readings from state `s`. -/
def clockAdvance (rt : Runtime σ) : Nat → σ → σ
  | 0, s => s
  | n + 1, s => clockAdvance rt n (rt.now s).2

end Clock

/-- The containers of a listing that reference the image. -/
def referencing (imageId : String) (containers : List Container) : List Container :=
  containers.filter fun c => decide (c.ImageID = imageId)

/-- The containers of a listing that reference the image and are not running. -/
def stoppedReferencing (imageId : String) (containers : List Container) : List Container :=
  (referencing imageId containers).filter fun c => decide (c.State ≠ "running")

/-- A failed removal attempt in a trace: a connection that failed or a
container removal request that failed. -/
def Event.isFailedRemoval : Event → Bool
  | .newClient false => true
  | .containerRemove _ _ false => true
  | _ => false

/-- The requests `Remove` issues: opening and closing a client, and removing a container. -/
def Event.isRemovalStep : Event → Bool
  | .newClient _ => true
  | .containerRemove _ _ _ => true
  | .close => true
  | _ => false

/-- The opening of a client in a trace; `Remove` opens one for every id that is not empty. -/
def Event.isNewClient : Event → Bool
  | .newClient _ => true
  | _ => false

/-- An image removal request in a trace. -/
def Event.isImageRemove : Event → Bool
  | .imageRemove _ _ _ _ => true
  | _ => false

/-- The safety property of a trace: every image removal is preceded by a
successful container listing after which only removal steps occur, among them
the successful forced removal of every listed container with a non-empty id
that references the image. -/
def guardedRemovals (events : List Event) : Prop :=
  ∀ pre id force prune ok post, events = pre ++ Event.imageRemove id force prune ok :: post →
    ∃ before containers after,
      pre = before ++ Event.containerList true (some containers) :: after ∧
      (∀ e ∈ after, e.isRemovalStep = true) ∧
      ∀ c ∈ containers, c.ImageID = id → c.ID ≠ "" →
        Event.containerRemove c.ID true true ∈ after

/-! ## A scripted runtime for concrete scenarios -/

/-- A runtime whose answers are fixed in advance: every capability returns the
scripted answer and leaves the script unchanged; removing a container fails
exactly for the ids in `failingRemovals`. -/
structure Scenario where
  newClientErr : Option Err
  createResult : Except Err String
  startErr : Option Err
  arm2 : Select2
  arm3 : Select3
  logs : Except Err (Except Err Bytes)
  stopErr : Option Err
  failingRemovals : List String
  containers : Except Err (List Container)
  images : Except Err (List ImageSummary)
  imageRemoveErr : Option Err
  clock : Int

def scenarioRuntime : Runtime Scenario where
  newClient := fun s => (s.newClientErr, s)
  close := fun s => s
  containerCreate := fun _ _ _ s => (s.createResult, s)
  containerStart := fun _ s => (s.startErr, s)
  containerWait := fun _ s => s
  select2 := fun s => (s.arm2, s)
  select3 := fun _ s => (s.arm3, s)
  containerLogs := fun _ _ s => (s.logs, s)
  containerStop := fun _ _ s => (s.stopErr, s)
  containerRemove := fun id _ s =>
    (if id ∈ s.failingRemovals then some "removal failed" else none, s)
  containerList := fun _ s => (s.containers, s)
  imageList := fun _ s => (s.images, s)
  imageRemove := fun _ _ _ s => (s.imageRemoveErr, s)
  now := fun s => (s.clock, s)

/-- Library functions for concrete scenarios: no port specs, sizes rejected,
and a strip that leaves the bytes unchanged. -/
def scenarioLib : Lib where
  parsePortSpecs := fun _ => ([], [])
  fromHumanSize := fun _ => .error "invalid size"
  strip := fun b => b

/-- A healthy run: the container exits with status 3 and every call succeeds. -/
def healthyRun : Scenario where
  newClientErr := none
  createResult := .ok "c1"
  startErr := none
  arm2 := .statusC { Error := none, StatusCode := 3 }
  arm3 := .statusC { Error := none, StatusCode := 3 }
  logs := .ok (.ok [104, 105])
  stopErr := none
  failingRemovals := []
  containers := .ok []
  images := .ok []
  imageRemoveErr := none
  clock := 0

/-- The healthy run, except that the stop call fails. -/
def stopFails : Scenario := { healthyRun with stopErr := some "stop failed" }

/-- A run whose timeout timer fires first and whose stop call then fails. -/
def timerFiresStopFails : Scenario :=
  { healthyRun with arm3 := .timerC, stopErr := some "stop failed" }

/-- A run whose error channel yields a nil error before any status. -/
def nilWaitError : Scenario := { healthyRun with arm2 := .errC none }

/-- A run whose error channel yields the error `boom` before any status. -/
def waitError : Scenario := { healthyRun with arm2 := .errC (some "boom") }

/-- Three days, the validity window of the test, in nanoseconds. -/
def threeDays : Int := 3 * 24 * 3600 * 1000000000

/-- A listing with one image created at the epoch whose sole tag is
`app:demo-x.`, no containers, and a clock far beyond the validity window. -/
def staleDotImage : Scenario :=
  { healthyRun with
    images := .ok [{ ID := "img1", RepoTags := ["app:demo-x."], Created := 0 }]
    clock := 1000000000000000000 }

/-- A stale demo image `img1` with one stopped container `c9` as old as the image. -/
def staleImageStoppedContainer : Scenario :=
  { healthyRun with
    images := .ok [{ ID := "img1", RepoTags := ["demo-a.b1"], Created := 0 }]
    containers := .ok [{ ID := "c9", ImageID := "img1", State := "exited", Created := 0 }]
    clock := 1000000000000000000 }

/-- A stale demo image `img1` whose one stopped, old container has the empty id. -/
def staleImageUnnamedContainer : Scenario :=
  { healthyRun with
    images := .ok [{ ID := "img1", RepoTags := ["demo-a.b1"], Created := 0 }]
    containers := .ok [{ ID := "", ImageID := "img1", State := "exited", Created := 0 }]
    clock := 1000000000000000000 }

/-- A stale demo image `img1` with one stopped container `c9` whose creation
time is the largest `int64`, beyond the range `time.Unix` represents without
wrapping. -/
def staleImageWrappedContainer : Scenario :=
  { healthyRun with
    images := .ok [{ ID := "img1", RepoTags := ["demo-a.b1"], Created := 0 }]
    containers :=
      .ok [{ ID := "c9", ImageID := "img1", State := "exited", Created := 9223372036854775807 }]
    clock := 1000000000000000000 }

/-- Two stale demo images without containers, on a runtime where every image removal fails. -/
def twoStaleImagesRemovalFails : Scenario :=
  { healthyRun with
    images := .ok [{ ID := "img1", RepoTags := ["demo-a.b1"], Created := 0 },
      { ID := "img2", RepoTags := ["demo-c.d2"], Created := 0 }]
    imageRemoveErr := some "image removal failed"
    clock := 1000000000000000000 }

/-- The option bag with no option set. -/
def noOptions : Options := fun _ => none

/-- The option bag with only `timeout` set to the `int` value `n`. -/
def timeoutOption (n : Int) : Options := fun k => if k = "timeout" then some (.int n) else none

/-- The option bag with only `timeout` set, to the string `text` instead of an `int`. -/
def timeoutText (text : String) : Options :=
  fun k => if k = "timeout" then some (.str text) else none

/-- A callback that records its arguments. -/
def recordCallback : Int → Option Err → Int → List (Int × Option Err × Int) →
    List (Int × Option Err × Int) :=
  fun exitCode err duration seen => seen ++ [(exitCode, err, duration)]

/-! ## image.go -/

/-- The bytes of an ASCII string literal of the source. -/
def ascii (s : String) : Bytes := s.toList.map Char.toNat

/-- Source: `var b26Alphabet = []byte("abcdefghijkmnopqrstuvwxyz_")`. -/
def b26Alphabet : Bytes := ascii "abcdefghijkmnopqrstuvwxyz_"

/-- The value `big.NewInt(0).SetBytes(input)`: the bytes read as a big-endian
unsigned integer. -/
def bigSetBytes (input : Bytes) : Nat := input.foldl (fun x b => x * 256 + b) 0

/-- The loop of `base26Encode` (lines 78-81), entered with the current `x` and
the result appended so far: while `x` is not zero, divide it by the length of
the alphabet and append the alphabet byte at the remainder. -/
def base26Encode.loop (x : Nat) (result : Bytes) : Bytes :=
  if h : x ≠ 0 then
    have hidx : x % b26Alphabet.length < b26Alphabet.length := Nat.mod_lt _ (by decide)
    base26Encode.loop (x / b26Alphabet.length) (result ++ [b26Alphabet[x % b26Alphabet.length]])
  else result
termination_by x
decreasing_by exact Nat.div_lt_self (Nat.pos_of_ne_zero h) (by decide)

/-- Source: `base26Encode(input)`. -/
def base26Encode (input : Bytes) : Bytes := base26Encode.loop (bigSetBytes input) []

/-- A `hash.Hash` in use: the bytes written to it so far. -/
structure Hash where
  written : Bytes
deriving DecidableEq, Repr

/-- Source: `crypto.MD5.New()`, a hash to which nothing has been written. -/
def Hash.New : Hash := { written := [] }

/-- The method `Sum(b)` of `hash.Hash`: it appends the digest of the bytes
written so far to `b` and returns the resulting slice; the digest function
`md5` of the library is taken as given. -/
def Hash.Sum (md5 : Bytes → Bytes) (h : Hash) (b : Bytes) : Bytes := b ++ md5 h.written

/-- The slice expression `b[0:n]`; `none` is the panic on bounds out of range. -/
def sliceTo (b : Bytes) (n : Nat) : Option Bytes :=
  if n ≤ b.length then some (b.take n) else none

/-- Source: `GetImageName(prefix, id)`.  Go strings are byte sequences and are
modelled by their bytes; `none` is a panic of the slice expression. -/
def GetImageName (md5 : Bytes → Bytes) (pfx id : Bytes) : Option Bytes :=
  if id.length > 0 then
    let bytes := Hash.Sum md5 Hash.New id
    match sliceTo bytes 10 with
    | some first => some (pfx ++ ascii "." ++ base26Encode first)
    | none => none
  else some []

/-- The MD5 digest of the empty input, `d41d8cd98f00b204e9800998ecf8427e`. -/
def md5OfEmpty : Bytes :=
  [0xd4, 0x1d, 0x8c, 0xd9, 0x8f, 0x00, 0xb2, 0x04, 0xe9, 0x80, 0x09, 0x98, 0xec, 0xf8, 0x42, 0x7e]

/-- A digest function for concrete scenarios: it is MD5 on the empty input,
the only input `GetImageName` ever digests, and a 16-byte stand-in that
depends on the input elsewhere. -/
def scenarioMD5 : Bytes → Bytes
  | [] => md5OfEmpty
  | b :: rest => List.replicate 16 ((b + rest.sum) % 256)

/-! ## Actions -/

section ActLemmas

variable {σ α β : Type}

@[simp]
theorem Act.bind_run (m : Act σ α) (f : α → Act σ β) (s : σ) :
    (m >>= f).run s =
      ⟨((f (m.run s).val).run (m.run s).state).val,
        (m.run s).events ++ ((f (m.run s).val).run (m.run s).state).events,
        ((f (m.run s).val).run (m.run s).state).state⟩ := rfl

@[simp]
theorem Act.pure_run (a : α) (s : σ) : (Pure.pure a : Act σ α).run s = ⟨a, [], s⟩ := rfl

section CallLemmas

variable (rt : Runtime σ) (s : σ)

@[simp]
theorem newClient_run : (newClient rt).run s =
    ⟨(rt.newClient s).1, [Event.newClient (rt.newClient s).1.isNone], (rt.newClient s).2⟩ := rfl

@[simp]
theorem close_run : (close rt).run s = ⟨(), [Event.close], rt.close s⟩ := rfl

@[simp]
theorem containerCreate_run (cfg : Config) (host : HostConfig) (name : String) :
    (containerCreate rt cfg host name).run s =
      ⟨(rt.containerCreate cfg host name s).1,
        [Event.containerCreate cfg host name (rt.containerCreate cfg host name s).1.toBool],
        (rt.containerCreate cfg host name s).2⟩ := rfl

@[simp]
theorem containerStart_run (id : String) : (containerStart rt id).run s =
    ⟨(rt.containerStart id s).1, [Event.containerStart id (rt.containerStart id s).1.isNone],
      (rt.containerStart id s).2⟩ := rfl

@[simp]
theorem containerWait_run (id : String) : (containerWait rt id).run s =
    ⟨(), [Event.containerWait id], rt.containerWait id s⟩ := rfl

@[simp]
theorem select2_run : (select2 rt).run s =
    ⟨(rt.select2 s).1, [Event.select2 (rt.select2 s).1], (rt.select2 s).2⟩ := rfl

@[simp]
theorem select3_run (timer : Int) : (select3 rt timer).run s =
    ⟨(rt.select3 timer s).1, [Event.select3 timer (rt.select3 timer s).1],
      (rt.select3 timer s).2⟩ := rfl

@[simp]
theorem clientContainerLogs_run (id tail : String) : (clientContainerLogs rt id tail).run s =
    ⟨(rt.containerLogs id tail s).1,
      [Event.containerLogs id tail (match (rt.containerLogs id tail s).1 with
        | .ok (.ok byt) => some byt
        | _ => none)],
      (rt.containerLogs id tail s).2⟩ := rfl

@[simp]
theorem containerStop_run (id : String) (timeout : Int) : (containerStop rt id timeout).run s =
    ⟨(rt.containerStop id timeout s).1,
      [Event.containerStop id timeout (rt.containerStop id timeout s).1.isNone],
      (rt.containerStop id timeout s).2⟩ := rfl

@[simp]
theorem containerRemove_run (id : String) (force : Bool) : (containerRemove rt id force).run s =
    ⟨(rt.containerRemove id force s).1,
      [Event.containerRemove id force (rt.containerRemove id force s).1.isNone],
      (rt.containerRemove id force s).2⟩ := rfl

@[simp]
theorem containerList_run (all : Bool) : (containerList rt all).run s =
    ⟨(rt.containerList all s).1, [Event.containerList all (rt.containerList all s).1.toOption],
      (rt.containerList all s).2⟩ := rfl

@[simp]
theorem imageList_run (all : Bool) : (imageList rt all).run s =
    ⟨(rt.imageList all s).1, [Event.imageList all (rt.imageList all s).1.toBool],
      (rt.imageList all s).2⟩ := rfl

@[simp]
theorem imageRemove_run (id : String) (force pruneChildren : Bool) :
    (imageRemove rt id force pruneChildren).run s =
      ⟨(rt.imageRemove id force pruneChildren s).1,
        [Event.imageRemove id force pruneChildren (rt.imageRemove id force pruneChildren s).1.isNone],
        (rt.imageRemove id force pruneChildren s).2⟩ := rfl

@[simp]
theorem now_run : (now rt).run s = ⟨(rt.now s).1, [], (rt.now s).2⟩ := rfl

@[simp]
theorem goWait_run (id : String) : (goWait id : Act σ Unit).run s = ⟨(), [Event.goWait id], s⟩ := rfl

end CallLemmas

end ActLemmas

/-! ## Durations -/

theorem wrap64_of_range (n : Int) (h1 : -9223372036854775808 ≤ n)
    (h2 : n < 9223372036854775808) : wrap64 n = n := by
  have e63 : (2 : Int) ^ 63 = 9223372036854775808 := by norm_num
  have e64 : (2 : Int) ^ 64 = 18446744073709551616 := by norm_num
  simp only [wrap64, e63, e64]
  omega

theorem wrap64_add_wrap64 (a b : Int) : wrap64 (wrap64 a + b) = wrap64 (a + b) := by
  have e63 : (2 : Int) ^ 63 = 9223372036854775808 := by norm_num
  have e64 : (2 : Int) ^ 64 = 18446744073709551616 := by norm_num
  simp only [wrap64, e63, e64]
  omega

/-- Truncated division by a positive literal: quotient and remainder recompose
the dividend, and the remainder has the sign of the dividend. -/
theorem tdiv_tmod_spec (d : Int) :
    1000000000 * Int.tdiv d 1000000000 + Int.tmod d 1000000000 = d ∧
    (0 ≤ d → 0 ≤ Int.tmod d 1000000000 ∧ Int.tmod d 1000000000 < 1000000000) ∧
    (d < 0 → -1000000000 < Int.tmod d 1000000000 ∧ Int.tmod d 1000000000 ≤ 0) := by
  refine ⟨Int.tdiv_add_tmod d 1000000000, ?_, ?_⟩
  · intro hd
    exact ⟨Int.tmod_nonneg _ hd, Int.tmod_lt_of_pos _ (by decide)⟩
  · intro hd
    obtain ⟨m, rfl⟩ := Int.eq_negSucc_of_lt_zero hd
    have hmod : Int.tmod (Int.negSucc m) 1000000000 =
        -(((m + 1) % 1000000000 : Nat) : Int) := rfl
    rw [hmod]
    have hlt : (m + 1) % 1000000000 < 1000000000 := Nat.mod_lt _ (by decide)
    omega

/-- Adding seconds without overflow is exact. -/
theorem Time.addSec_exact (ext d : Int) (h3 : -9223372036854775808 ≤ ext + d)
    (h4 : ext + d < 9223372036854775808) : Time.addSec ext d = ext + d := by
  have hcond : decide (ext + d > ext) = decide (d > 0) := by
    rw [decide_eq_decide]
    omega
  simp only [Time.addSec, wrap64_of_range _ h3 h4, hcond, if_true]

/-- Within range, the duration `time.Now().Sub(time.Unix(sec, 0))` is the exact
difference between the clock reading and the creation time: when neither
instant wraps and the difference fits a `time.Duration`, the age is
`ns - sec * 10^9` nanoseconds. -/
theorem Time.Sub_exact (ns sec : Int)
    (hsec1 : -9223372036854775808 ≤ sec + unixToInternal)
    (hsec2 : sec + unixToInternal < 9223372036854775808)
    (hns1 : -9223372036854775808 ≤ ns / 1000000000 + unixToInternal)
    (hns2 : ns / 1000000000 + unixToInternal < 9223372036854775808)
    (hd1 : minDuration ≤ ns - sec * 1000000000)
    (hd2 : ns - sec * 1000000000 ≤ maxDuration) :
    Time.Sub (timeNow ns) (timeUnix sec) = ns - sec * 1000000000 := by
  have e63 : (2 : Int) ^ 63 = 9223372036854775808 := by norm_num
  simp only [minDuration, maxDuration, e63] at hd1 hd2
  have hq : wrap64 (ns / 1000000000 + unixToInternal) = ns / 1000000000 + unixToInternal :=
    wrap64_of_range _ hns1 hns2
  have hu : wrap64 (sec + unixToInternal) = sec + unixToInternal := wrap64_of_range _ hsec1 hsec2
  have hdiff : wrap64 (ns / 1000000000 + unixToInternal - (sec + unixToInternal)) =
      ns / 1000000000 - sec := by
    rw [wrap64_of_range] <;> omega
  have hd : wrap64 (wrap64 ((ns / 1000000000 - sec) * 1000000000) + (ns % 1000000000 - 0)) =
      ns - sec * 1000000000 := by
    rw [wrap64_add_wrap64, wrap64_of_range] <;> omega
  obtain ⟨hrec, hpos, hneg⟩ := tdiv_tmod_spec (ns - sec * 1000000000)
  have hadd : (timeUnix sec).Add (ns - sec * 1000000000) = timeNow ns := by
    simp only [Time.Add, timeUnix, timeNow, hq, hu, Int.zero_add]
    generalize Int.tdiv (ns - sec * 1000000000) 1000000000 = Q at hrec
    generalize Int.tmod (ns - sec * 1000000000) 1000000000 = M at hrec hpos hneg
    have hM : -1000000000 < M ∧ M < 1000000000 := by
      rcases Int.lt_or_le (ns - sec * 1000000000) 0 with hlt | hge
      · have := hneg hlt
        omega
      · have := hpos hge
        omega
    have hhi : ¬ M ≥ 1000000000 := by omega
    simp only [hhi, if_false]
    by_cases hlow : M < 0
    · have hQ : sec + unixToInternal + (Q - 1) = ns / 1000000000 + unixToInternal := by omega
      have hr : M + 1000000000 = ns % 1000000000 := by omega
      simp only [hlow, if_true]
      rw [Time.addSec_exact _ _ (by omega) (by omega), hQ, hr]
    · have hQ : sec + unixToInternal + Q = ns / 1000000000 + unixToInternal := by omega
      have hr : M = ns % 1000000000 := by omega
      simp only [hlow, if_false]
      rw [Time.addSec_exact _ _ (by omega) (by omega), hQ, hr]
  simp only [Time.Sub]
  simp only [timeNow, timeUnix, hq, hu] at hadd ⊢
  rw [hdiff, hd, hadd]
  simp [Time.Equal]

/-! ## Bind mounts -/

theorem bindMountsFrom_eq (bindPaths : List String) :
    ∀ (n i : Nat) (mounts : List Mount), bindPaths.length - i ≤ n →
      bindMountsFrom bindPaths i mounts = some (mounts ++ pairMounts (bindPaths.drop i)) := by
  intro n
  induction n with
  | zero =>
    intro i mounts h
    have hlen : bindPaths.length ≤ i := by omega
    rw [bindMountsFrom]
    have hcond : ¬ ((i : Int) < (bindPaths.length : Int) - 1) := by omega
    simp [hcond, List.drop_eq_nil_of_le hlen, pairMounts]
  | succ n ih =>
    intro i mounts h
    rw [bindMountsFrom]
    by_cases hcond : (i : Int) < (bindPaths.length : Int) - 1
    · have h1 : i < bindPaths.length := by omega
      have h2 : i + 1 < bindPaths.length := by omega
      have hd : bindPaths.drop i = bindPaths[i] :: bindPaths[i + 1] :: bindPaths.drop (i + 2) := by
        rw [List.drop_eq_getElem_cons h1, List.drop_eq_getElem_cons h2]
      simp only [hcond, if_true, List.getElem?_eq_getElem h1, List.getElem?_eq_getElem h2]
      rw [ih (i + 2) _ (by omega), hd]
      simp [pairMounts]
    · simp only [hcond, if_false]
      have hl : bindPaths.length ≤ i + 1 := by omega
      rcases Nat.lt_or_ge i bindPaths.length with h1 | h1
      · have hd : bindPaths.drop i = [bindPaths[i]] := by
          rw [List.drop_eq_getElem_cons h1, List.drop_eq_nil_of_le hl]
        simp [hd, pairMounts]
      · simp [List.drop_eq_nil_of_le h1, pairMounts]

theorem bindMounts_eq (bindPaths : List String) :
    bindMounts bindPaths = some (pairMounts bindPaths) := by
  unfold bindMounts
  rw [bindMountsFrom_eq bindPaths bindPaths.length 0 [] (by omega)]
  simp

theorem pairMounts_spec :
    ∀ (n : Nat) (bindPaths : List String), bindPaths.length ≤ n →
      (pairMounts bindPaths).length = bindPaths.length / 2 ∧
      ∀ k, k < bindPaths.length / 2 → ∃ src tgt,
        bindPaths[2 * k]? = some src ∧ bindPaths[2 * k + 1]? = some tgt ∧
        (pairMounts bindPaths)[k]? = some { Type_ := "bind", Source := src, Target := tgt } := by
  intro n
  induction n using Nat.strong_induction_on with
  | _ n ih =>
    intro bindPaths hlen
    match bindPaths, hlen with
    | [], _ => simp [pairMounts]
    | [_], _ => simp [pairMounts]
    | src :: tgt :: rest, hlen =>
      simp only [List.length_cons] at hlen
      obtain ⟨h1, h2⟩ := ih rest.length (by omega) rest (le_refl _)
      constructor
      · simp only [pairMounts, List.length_cons, h1]
        omega
      · intro k hk
        cases k with
        | zero => exact ⟨src, tgt, by simp [pairMounts]⟩
        | succ j =>
          simp only [List.length_cons] at hk
          obtain ⟨a, b, ha, hb, hab⟩ := h2 j (by omega)
          refine ⟨a, b, ?_, ?_, ?_⟩
          · rw [← ha]
            have e : 2 * (j + 1) = 2 * j + 1 + 1 := by ring
            rw [e]
            simp
          · rw [← hb]
            have e : 2 * (j + 1) + 1 = 2 * j + 1 + 1 + 1 := by ring
            rw [e]
            simp
          · simpa [pairMounts] using hab

/-! ## Regular expressions: the matcher computes the denotation -/

namespace Regexp

theorem matches_noMatch (s : List Char) : ¬ Matches noMatch s := by
  intro h
  cases h

theorem matches_emptyMatch (s : List Char) : Matches emptyMatch s ↔ s = [] := by
  constructor
  · intro h
    cases h
    rfl
  · rintro rfl
    exact Matches.emptyMatch

theorem matches_charClass (ranges : List (Char × Char)) (s : List Char) :
    Matches (charClass ranges) s ↔ ∃ c, s = [c] ∧ inRanges ranges c = true := by
  constructor
  · intro h
    cases h with
    | charClass hc => exact ⟨_, rfl, hc⟩
  · rintro ⟨c, rfl, hc⟩
    exact Matches.charClass hc

theorem matches_concat (a b : Regexp) (s : List Char) :
    Matches (concat a b) s ↔ ∃ x y, s = x ++ y ∧ Matches a x ∧ Matches b y := by
  constructor
  · intro h
    cases h with
    | concat ha hb => exact ⟨_, _, rfl, ha, hb⟩
  · rintro ⟨x, y, rfl, ha, hb⟩
    exact Matches.concat ha hb

theorem matches_alternate (a b : Regexp) (s : List Char) :
    Matches (alternate a b) s ↔ Matches a s ∨ Matches b s := by
  constructor
  · intro h
    cases h with
    | left ha => exact Or.inl ha
    | right hb => exact Or.inr hb
  · rintro (ha | hb)
    · exact Matches.left ha
    · exact Matches.right hb

/-- A non-empty match of `a*` starts with a non-empty match of `a`. -/
theorem matches_star_cons (a : Regexp) (c : Char) (s : List Char)
    (h : Matches (star a) (c :: s)) :
    ∃ x y, s = x ++ y ∧ Matches a (c :: x) ∧ Matches (star a) y := by
  generalize hr : star a = r at h
  generalize hw : c :: s = w at h
  induction h with
  | emptyMatch => cases hr
  | charClass _ => cases hr
  | concat _ _ _ _ => cases hr
  | left _ _ => cases hr
  | right _ _ => cases hr
  | starNil => cases hw
  | @starCons a1 x y hx hy _ ih =>
    cases hr
    cases x with
    | nil => exact ih rfl hw
    | cons d x1 =>
      simp only [List.cons_append, List.cons.injEq] at hw
      obtain ⟨rfl, rfl⟩ := hw
      exact ⟨x1, y, rfl, hx, hy⟩

theorem matches_star_of_all (a : Regexp) (s : List Char)
    (h : ∀ c ∈ s, Matches a [c]) : Matches (star a) s := by
  induction s with
  | nil => exact Matches.starNil
  | cons c cs ih =>
    have h1 : Matches a [c] := h c (List.mem_cons_self c cs)
    have h2 : Matches (star a) cs := ih fun d hd => h d (List.mem_cons_of_mem c hd)
    exact Matches.starCons h1 h2

theorem nullable_iff (r : Regexp) : nullable r = true ↔ Matches r [] := by
  induction r with
  | noMatch => simp [nullable, matches_noMatch]
  | emptyMatch => simp [nullable, matches_emptyMatch]
  | charClass ranges => simp [nullable, matches_charClass]
  | concat a b iha ihb =>
    simp only [nullable, Bool.and_eq_true, iha, ihb, matches_concat]
    constructor
    · rintro ⟨ha, hb⟩
      exact ⟨[], [], rfl, ha, hb⟩
    · rintro ⟨x, y, hxy, ha, hb⟩
      have hx : x = [] := by
        cases x with
        | nil => rfl
        | cons _ _ => simp at hxy
      have hy : y = [] := by
        cases y with
        | nil => rfl
        | cons _ _ => simp at hxy
      subst hx hy
      exact ⟨ha, hb⟩
  | alternate a b iha ihb =>
    simp only [nullable, Bool.or_eq_true, iha, ihb, matches_alternate]
  | star a _ =>
    simp only [nullable, true_iff]
    exact Matches.starNil

theorem deriv_iff (c : Char) (r : Regexp) :
    ∀ s : List Char, Matches (deriv c r) s ↔ Matches r (c :: s) := by
  induction r with
  | noMatch => intro s; simp [deriv, matches_noMatch]
  | emptyMatch => intro s; simp [deriv, matches_noMatch, matches_emptyMatch]
  | charClass ranges =>
    intro s
    by_cases hc : inRanges ranges c = true
    · simp only [deriv, hc, if_true, matches_emptyMatch, matches_charClass]
      constructor
      · rintro rfl
        exact ⟨c, rfl, hc⟩
      · rintro ⟨d, hd, _⟩
        simp only [List.cons.injEq] at hd
        exact hd.2
    · simp only [deriv, hc, matches_charClass]
      constructor
      · intro h
        exact absurd h (matches_noMatch s)
      · rintro ⟨d, hd, hin⟩
        simp only [List.cons.injEq] at hd
        obtain ⟨rfl, _⟩ := hd
        exact absurd hin hc
  | concat a b iha ihb =>
    intro s
    have hcat : Matches (concat (deriv c a) b) s ↔
        ∃ x y, s = x ++ y ∧ Matches a (c :: x) ∧ Matches b y := by
      simp only [matches_concat, iha]
    by_cases hn : nullable a = true
    · simp only [deriv, hn, if_true, matches_alternate, hcat, ihb]
      constructor
      · rintro (⟨x, y, rfl, ha, hb⟩ | hb)
        · exact Matches.concat ha hb
        · exact Matches.concat ((nullable_iff a).1 hn) hb
      · intro h
        obtain ⟨x, y, hxy, ha, hb⟩ := (matches_concat a b _).1 h
        cases x with
        | nil =>
          simp only [List.nil_append] at hxy
          subst hxy
          exact Or.inr hb
        | cons d x1 =>
          simp only [List.cons_append, List.cons.injEq] at hxy
          obtain ⟨rfl, rfl⟩ := hxy
          exact Or.inl ⟨x1, y, rfl, ha, hb⟩
    · simp only [deriv, hn, Bool.false_eq_true, if_false, hcat]
      constructor
      · rintro ⟨x, y, rfl, ha, hb⟩
        exact Matches.concat ha hb
      · intro h
        obtain ⟨x, y, hxy, ha, hb⟩ := (matches_concat a b _).1 h
        cases x with
        | nil => exact absurd ((nullable_iff a).2 ha) hn
        | cons d x1 =>
          simp only [List.cons_append, List.cons.injEq] at hxy
          obtain ⟨rfl, rfl⟩ := hxy
          exact ⟨x1, y, rfl, ha, hb⟩
  | alternate a b iha ihb =>
    intro s
    simp only [deriv, matches_alternate, iha, ihb]
  | star a iha =>
    intro s
    simp only [deriv, matches_concat, iha]
    constructor
    · rintro ⟨x, y, rfl, ha, hs⟩
      exact Matches.starCons ha hs
    · intro h
      exact matches_star_cons a c s h

theorem matchPrefix_iff (s : List Char) :
    ∀ r : Regexp, matchPrefix r s = true ↔ ∃ x y, s = x ++ y ∧ Matches r x := by
  induction s with
  | nil =>
    intro r
    simp only [matchPrefix, nullable_iff]
    constructor
    · intro h
      exact ⟨[], [], rfl, h⟩
    · rintro ⟨x, y, hxy, h⟩
      cases x with
      | nil => exact h
      | cons _ _ => simp at hxy
  | cons c cs ih =>
    intro r
    simp only [matchPrefix, Bool.or_eq_true, nullable_iff, ih, deriv_iff]
    constructor
    · rintro (h | ⟨x, y, rfl, h⟩)
      · exact ⟨[], c :: cs, rfl, h⟩
      · exact ⟨c :: x, y, rfl, h⟩
    · rintro ⟨x, y, hxy, h⟩
      cases x with
      | nil => exact Or.inl h
      | cons d x1 =>
        simp only [List.cons_append, List.cons.injEq] at hxy
        obtain ⟨rfl, rfl⟩ := hxy
        exact Or.inr ⟨x1, y, rfl, h⟩

/-- The unanchored search succeeds exactly when some substring is in the denotation. -/
theorem search_iff (r : Regexp) (s : List Char) :
    search r s = true ↔ ∃ p x q, s = p ++ x ++ q ∧ Matches r x := by
  induction s with
  | nil =>
    simp only [search, nullable_iff]
    constructor
    · intro h
      exact ⟨[], [], [], rfl, h⟩
    · rintro ⟨p, x, q, hs, h⟩
      cases x with
      | nil => exact h
      | cons _ _ => simp at hs
  | cons c cs ih =>
    simp only [search, Bool.or_eq_true, matchPrefix_iff, ih]
    constructor
    · rintro (⟨x, y, hxy, h⟩ | ⟨p, x, q, hs, h⟩)
      · exact ⟨[], x, y, by simpa using hxy, h⟩
      · exact ⟨c :: p, x, q, by simp [hs], h⟩
    · rintro ⟨p, x, q, hs, h⟩
      cases p with
      | nil => exact Or.inl ⟨x, q, by simpa using hs, h⟩
      | cons d p1 =>
        simp only [List.cons_append, List.cons.injEq] at hs
        obtain ⟨rfl, rfl⟩ := hs
        exact Or.inr ⟨p1, x, q, rfl, h⟩

theorem inRanges_rune (c d : Char) : inRanges [(c, c)] d = true ↔ d = c := by
  simp only [inRanges, List.any_cons, List.any_nil, Bool.or_false, Bool.and_eq_true,
    decide_eq_true_eq]
  constructor
  · rintro ⟨h1, h2⟩
    exact Char.le_antisymm h2 h1
  · rintro rfl
    exact ⟨Char.le_refl _, Char.le_refl _⟩

theorem matches_rune (c : Char) (s : List Char) : Matches (rune c) s ↔ s = [c] := by
  simp only [rune, matches_charClass, inRanges_rune]
  constructor
  · rintro ⟨d, rfl, rfl⟩
    rfl
  · rintro rfl
    exact ⟨c, rfl, rfl⟩

theorem matches_literal (l : List Char) : ∀ s : List Char, Matches (literal l) s ↔ s = l := by
  induction l with
  | nil =>
    intro s
    simp [literal, matches_emptyMatch]
  | cons c cs ih =>
    intro s
    simp only [literal, matches_concat, matches_rune, ih]
    constructor
    · rintro ⟨x, y, rfl, rfl, rfl⟩
      rfl
    · rintro rfl
      exact ⟨[c], cs, rfl, rfl, rfl⟩

theorem matches_star_charClass (ranges : List (Char × Char)) (s : List Char) :
    Matches (star (charClass ranges)) s ↔ ∀ c ∈ s, inRanges ranges c = true := by
  constructor
  · induction s with
    | nil =>
      intro _ c hc
      cases hc
    | cons d ds ih =>
      intro h
      obtain ⟨x, y, hxy, hd, hy⟩ := matches_star_cons _ d ds h
      obtain ⟨e, he, hin⟩ := (matches_charClass ranges _).1 hd
      simp only [List.cons.injEq] at he
      obtain ⟨rfl, rfl⟩ := he
      simp only [List.nil_append] at hxy
      subst hxy
      intro c hc
      rcases List.mem_cons.1 hc with rfl | hc
      · exact hin
      · exact ih hy c hc
  · intro h
    exact matches_star_of_all _ s fun c hc => Matches.charClass (h c hc)

theorem matches_plus_charClass (ranges : List (Char × Char)) (s : List Char) :
    Matches (plus (charClass ranges)) s ↔ s ≠ [] ∧ ∀ c ∈ s, inRanges ranges c = true := by
  simp only [plus, matches_concat, matches_charClass, matches_star_charClass]
  constructor
  · rintro ⟨x, y, rfl, ⟨c, rfl, hc⟩, hy⟩
    refine ⟨by simp, ?_⟩
    intro d hd
    rcases List.mem_cons.1 hd with rfl | hd
    · exact hc
    · exact hy d hd
  · rintro ⟨hne, h⟩
    cases s with
    | nil => exact absurd rfl hne
    | cons c cs =>
      exact ⟨[c], cs, rfl, ⟨c, rfl, h c (List.mem_cons_self c cs)⟩,
        fun d hd => h d (List.mem_cons_of_mem c hd)⟩

theorem matches_quest_plus_charClass (ranges : List (Char × Char)) (s : List Char) :
    Matches (quest (plus (charClass ranges))) s ↔ ∀ c ∈ s, inRanges ranges c = true := by
  simp only [quest, matches_alternate, matches_plus_charClass, matches_emptyMatch]
  constructor
  · rintro (⟨_, h⟩ | rfl)
    · exact h
    · intro c hc
      cases hc
  · intro h
    by_cases hs : s = []
    · exact Or.inr hs
    · exact Or.inl ⟨hs, h⟩

end Regexp

/-! ## The demo image name pattern -/

/-- What `demoImageName` denotes: `demo-`, a possibly empty run of
word/hyphen characters, a dot, and a possibly empty run of lowercase
alphanumeric characters. -/
theorem matches_demoImageName (s : List Char) :
    Regexp.Matches demoImageName s ↔
      ∃ slug hash, s = "demo-".toList ++ slug ++ '.' :: hash ∧
        (∀ c ∈ slug, Regexp.inRanges wordHyphenClass c = true) ∧
        (∀ c ∈ hash, Regexp.inRanges lowerDigitClass c = true) := by
  simp only [demoImageName, Regexp.matches_concat, Regexp.matches_literal,
    Regexp.matches_quest_plus_charClass, Regexp.matches_rune]
  constructor
  · rintro ⟨x, y, rfl, rfl, slug, z, rfl, hslug, d, hash, rfl, rfl, hhash⟩
    exact ⟨slug, hash, by simp, hslug, hhash⟩
  · rintro ⟨slug, hash, rfl, hslug, hhash⟩
    exact ⟨_, _, by simp, rfl, slug, _, rfl, hslug, ['.'], hash, rfl, rfl, hhash⟩

theorem matches_demoPrefixPattern (s : List Char) :
    Regexp.Matches demoPrefixPattern s ↔
      ∃ slug, s = "demo-".toList ++ slug ++ ['.'] ∧
        (∀ c ∈ slug, Regexp.inRanges wordHyphenClass c = true) := by
  simp only [demoPrefixPattern, Regexp.matches_concat, Regexp.matches_literal,
    Regexp.matches_star_charClass, Regexp.matches_rune]
  constructor
  · rintro ⟨x, y, rfl, rfl, slug, z, rfl, hslug, rfl⟩
    exact ⟨slug, by simp, hslug⟩
  · rintro ⟨slug, rfl, hslug⟩
    exact ⟨_, _, by simp, rfl, slug, _, rfl, hslug, rfl⟩

/-- The search for `demoImageName` succeeds exactly where the search for
`demo-[\w\-]*\.` does: the optional hash adds nothing to an unanchored match. -/
theorem search_demoImageName (s : List Char) :
    Regexp.search demoImageName s = Regexp.search demoPrefixPattern s := by
  rw [Bool.eq_iff_iff, Regexp.search_iff, Regexp.search_iff]
  simp only [matches_demoImageName, matches_demoPrefixPattern]
  constructor
  · rintro ⟨p, x, q, rfl, slug, hash, rfl, hslug, _⟩
    exact ⟨p, _, hash ++ q, by simp, slug, rfl, hslug⟩
  · rintro ⟨p, x, q, rfl, slug, rfl, hslug⟩
    exact ⟨p, _, q, rfl, slug, [], by simp, hslug, by simp⟩

theorem isWordOrHyphen_inRanges (c : Char) (h : isWordOrHyphen c = true) :
    Regexp.inRanges wordHyphenClass c = true := by
  simp only [isWordOrHyphen, Char.isAlphanum, Char.isAlpha, Char.isUpper, Char.isLower,
    Char.isDigit, Bool.or_eq_true, Bool.and_eq_true, decide_eq_true_eq, beq_iff_eq] at h
  simp only [Regexp.inRanges, wordHyphenClass, List.any_cons, List.any_nil, Bool.or_false,
    Bool.or_eq_true, Bool.and_eq_true, decide_eq_true_eq, Char.le_def]
  rcases h with ((((h | h) | h) | h) | h)
  · exact Or.inr (Or.inl h)
  · exact Or.inr (Or.inr (Or.inr (Or.inl h)))
  · exact Or.inl h
  · subst h
    exact Or.inr (Or.inr (Or.inl ⟨by decide, by decide⟩))
  · subst h
    exact Or.inr (Or.inr (Or.inr (Or.inr ⟨by decide, by decide⟩)))

theorem isLowerOrDigit_inRanges (c : Char) (h : isLowerOrDigit c = true) :
    Regexp.inRanges lowerDigitClass c = true := by
  simp only [isLowerOrDigit, Char.isLower, Char.isDigit, Bool.or_eq_true, Bool.and_eq_true,
    decide_eq_true_eq] at h
  simp only [Regexp.inRanges, lowerDigitClass, List.any_cons, List.any_nil, Bool.or_false,
    Bool.or_eq_true, Bool.and_eq_true, decide_eq_true_eq, Char.le_def]
  exact h

/-! ## The eviction pass -/

section CleanLemmas

variable {σ : Type}

theorem Clean.images_cons (rt : Runtime σ) (i : ImageCleaner) (image : ImageSummary)
    (rest : List ImageSummary) (s : σ) :
    (Clean.images rt i (image :: rest)).run s =
      ⟨(), ((Clean.image rt i image).run s).events ++
          ((Clean.images rt i rest).run ((Clean.image rt i image).run s).state).events,
        ((Clean.images rt i rest).run ((Clean.image rt i image).run s).state).state⟩ := by
  simp only [Clean.images, Act.bind_run]

theorem Clean.images_append (rt : Runtime σ) (i : ImageCleaner) (pre post : List ImageSummary) :
    ∀ s : σ, (Clean.images rt i (pre ++ post)).run s =
      ⟨(), ((Clean.images rt i pre).run s).events ++
          ((Clean.images rt i post).run ((Clean.images rt i pre).run s).state).events,
        ((Clean.images rt i post).run ((Clean.images rt i pre).run s).state).state⟩ := by
  induction pre with
  | nil =>
    intro s
    simp [Clean.images]
  | cons image rest ih =>
    intro s
    rw [List.cons_append, Clean.images_cons, ih, Clean.images_cons]
    simp only [List.append_assoc]

/-- An image whose sole tag `demoImageName` does not match is skipped without any request. -/
theorem Clean.image_unmatched (rt : Runtime σ) (i : ImageCleaner) (image : ImageSummary)
    (tag : String) (s : σ) (htag : image.RepoTags = [tag])
    (hno : Regexp.MatchString demoImageName tag = false) :
    (Clean.image rt i image).run s = ⟨(), [], s⟩ := by
  simp [Clean.image, htag, hno]

/-- The ways `Remove` ends: nothing to do for the empty id; the connection
fails; the removal request fails; or it succeeds. -/
theorem Remove_cases (rt : Runtime σ) (id : String) (s : σ) :
    (id = "" ∧ (Remove rt id).run s = ⟨none, [], s⟩) ∨
    (id ≠ "" ∧ ∃ err, ((Remove rt id).run s).val = some err ∧
      ((Remove rt id).run s).events = [Event.newClient false]) ∨
    (id ≠ "" ∧ ∃ err, ((Remove rt id).run s).val = some err ∧
      ((Remove rt id).run s).events =
        [Event.newClient true, Event.containerRemove id true false, Event.close]) ∨
    (id ≠ "" ∧ ((Remove rt id).run s).val = none ∧
      ((Remove rt id).run s).events =
        [Event.newClient true, Event.containerRemove id true true, Event.close]) := by
  by_cases hid : id = ""
  · exact Or.inl ⟨hid, by simp [Remove, hid]⟩
  · right
    simp only [Remove, hid, if_false, Act.bind_run, newClient_run]
    split
    · rename_i err hnc
      exact Or.inl ⟨hid, err, by simp [hnc]⟩
    · rename_i hnc
      right
      simp only [now_run, containerRemove_run, Act.bind_run]
      split
      · rename_i err hrm
        exact Or.inl ⟨hid, err, by simp [hnc, hrm]⟩
      · rename_i hrm
        exact Or.inr ⟨hid, by simp [hnc, hrm]⟩

theorem removeAll_spec (rt : Runtime σ) (ids : List String) :
    ∀ (allRemoved : Bool) (s : σ),
      (((hasValidContainers.removeAll rt ids allRemoved).run s).val = true ↔
        allRemoved = true ∧
          ∀ e ∈ ((hasValidContainers.removeAll rt ids allRemoved).run s).events,
            e.isFailedRemoval = false) ∧
      (((hasValidContainers.removeAll rt ids allRemoved).run s).val = true →
        ∀ id ∈ ids, id ≠ "" → Event.containerRemove id true true ∈
          ((hasValidContainers.removeAll rt ids allRemoved).run s).events) ∧
      (∀ e ∈ ((hasValidContainers.removeAll rt ids allRemoved).run s).events,
        e.isRemovalStep = true) := by
  induction ids with
  | nil =>
    intro allRemoved s
    simp [hasValidContainers.removeAll]
  | cons id rest ih =>
    intro allRemoved s
    simp only [hasValidContainers.removeAll, Act.bind_run]
    rcases Remove_cases rt id s with ⟨hid, h⟩ | ⟨hid, err, hv, he⟩ | ⟨hid, err, hv, he⟩ |
      ⟨hid, hv, he⟩
    · rw [h]
      simp only [List.nil_append]
      obtain ⟨h1, h2, h3⟩ := ih allRemoved s
      refine ⟨h1, ?_, h3⟩
      intro hval id1 hmem hne
      rcases List.mem_cons.1 hmem with rfl | hmem
      · exact absurd hid hne
      · exact h2 hval id1 hmem hne
    · rw [hv, he]
      obtain ⟨h1, _, h3⟩ := ih false ((Remove rt id).run s).state
      simp only [h1, Bool.false_eq_true, false_and, false_implies, true_and, false_iff,
        not_and, List.forall_mem_append, List.forall_mem_cons]
      refine ⟨?_, ?_, h3⟩
      · intro _ hnf
        simp [Event.isFailedRemoval] at hnf
      · simp [Event.isRemovalStep]
    · rw [hv, he]
      obtain ⟨h1, _, h3⟩ := ih false ((Remove rt id).run s).state
      simp only [h1, Bool.false_eq_true, false_and, false_implies, true_and, false_iff,
        not_and, List.forall_mem_append, List.forall_mem_cons]
      refine ⟨?_, ?_, h3⟩
      · intro _ hnf
        simp [Event.isFailedRemoval] at hnf
      · simp [Event.isRemovalStep]
    · rw [hv, he]
      obtain ⟨h1, h2, h3⟩ := ih allRemoved ((Remove rt id).run s).state
      refine ⟨?_, ?_, ?_⟩
      · rw [h1]
        simp [Event.isFailedRemoval, List.forall_mem_append]
      · intro hval id1 hmem hne
        rcases List.mem_cons.1 hmem with rfl | hmem
        · simp
        · exact List.mem_append_right _ (h2 hval id1 hmem hne)
      · simp only [List.forall_mem_append, List.forall_mem_cons]
        exact ⟨by simp [Event.isRemovalStep], h3⟩

/-- The first loop of `hasValidContainers` issues no request; it queues the ids
of all referencing containers exactly when none of them is running and each
stopped one is older than the window at the clock reading taken for it, and
returns from inside the loop otherwise. -/
theorem scan_spec (rt : Runtime σ) (i : ImageCleaner) (imageId : String)
    (containers : List Container) :
    ∀ (queued : List String) (s : σ),
      ((hasValidContainers.scan rt i imageId containers queued).run s).events = [] ∧
      ((((hasValidContainers.scan rt i imageId containers queued).run s).val =
            some (queued ++ (referencing imageId containers).map fun c => c.ID) ∧
          (∀ c ∈ referencing imageId containers, c.State ≠ "running") ∧
          (∀ p ∈ (stoppedReferencing imageId containers).zip
              (clockReadings rt (stoppedReferencing imageId containers).length s),
            Time.Sub (timeNow p.2) (timeUnix p.1.Created) > i.InvalidDuration)) ∨
        (((hasValidContainers.scan rt i imageId containers queued).run s).val = none ∧
          ¬ ((∀ c ∈ referencing imageId containers, c.State ≠ "running") ∧
            (∀ p ∈ (stoppedReferencing imageId containers).zip
                (clockReadings rt (stoppedReferencing imageId containers).length s),
              Time.Sub (timeNow p.2) (timeUnix p.1.Created) > i.InvalidDuration)))) := by
  induction containers with
  | nil =>
    intro queued s
    simp [hasValidContainers.scan, referencing, stoppedReferencing, clockReadings]
  | cons c rest ih =>
    intro queued s
    by_cases hid : c.ImageID = imageId
    · by_cases hrun : c.State = "running"
      · refine ⟨by simp [hasValidContainers.scan, hid, hrun], Or.inr ⟨?_, ?_⟩⟩
        · simp [hasValidContainers.scan, hid, hrun]
        · intro h
          exact h.1 c (by simp [referencing, hid]) hrun
      · have href : referencing imageId (c :: rest) = c :: referencing imageId rest := by
          simp [referencing, hid]
        have hstop : stoppedReferencing imageId (c :: rest) =
            c :: stoppedReferencing imageId rest := by
          simp [stoppedReferencing, referencing, hid, hrun]
        rw [href, hstop]
        simp only [List.length_cons, clockReadings, List.zip_cons_cons, List.forall_mem_cons,
          List.map_cons]
        by_cases hage : Time.Sub (timeNow (rt.now s).1) (timeUnix c.Created) > i.InvalidDuration
        · obtain ⟨h1, h2⟩ := ih (queued ++ [c.ID]) (rt.now s).2
          have hrw : (hasValidContainers.scan rt i imageId (c :: rest) queued).run s =
              ⟨((hasValidContainers.scan rt i imageId rest (queued ++ [c.ID])).run
                  (rt.now s).2).val,
                ((hasValidContainers.scan rt i imageId rest (queued ++ [c.ID])).run
                  (rt.now s).2).events,
                ((hasValidContainers.scan rt i imageId rest (queued ++ [c.ID])).run
                  (rt.now s).2).state⟩ := by
            simp [hasValidContainers.scan, hid, hrun, hage]
          rw [hrw]
          refine ⟨h1, ?_⟩
          rcases h2 with ⟨hv, hA, hB⟩ | ⟨hv, hn⟩
          · exact Or.inl ⟨by simpa using hv, ⟨hrun, hA⟩, ⟨hage, hB⟩⟩
          · refine Or.inr ⟨hv, ?_⟩
            rintro ⟨⟨_, hA⟩, ⟨_, hB⟩⟩
            exact hn ⟨hA, hB⟩
        · refine ⟨by simp [hasValidContainers.scan, hid, hrun, hage], Or.inr ⟨?_, ?_⟩⟩
          · simp [hasValidContainers.scan, hid, hrun, hage]
          · rintro ⟨_, ⟨h, _⟩⟩
            exact hage h
    · have href : referencing imageId (c :: rest) = referencing imageId rest := by
        simp [referencing, hid]
      have hstop : stoppedReferencing imageId (c :: rest) = stoppedReferencing imageId rest := by
        simp [stoppedReferencing, href]
      have hrw : (hasValidContainers.scan rt i imageId (c :: rest) queued).run s =
          (hasValidContainers.scan rt i imageId rest queued).run s := by
        simp [hasValidContainers.scan, hid]
      rw [href, hstop, hrw]
      exact ih queued s

/-- What `hasValidContainers` does once the container listing succeeded. -/
theorem hasValidContainers_listed (rt : Runtime σ) (i : ImageCleaner) (imageId : String) (s : σ)
    (containers : List Container) (hlist : (rt.containerList true s).1 = .ok containers) :
    ∃ rest, ((hasValidContainers rt i imageId).run s).events =
        Event.containerList true (some containers) :: rest ∧
      (∀ e ∈ rest, e.isRemovalStep = true) ∧
      (((hasValidContainers rt i imageId).run s).val = false ↔
        (∀ c ∈ referencing imageId containers, c.State ≠ "running") ∧
        (∀ p ∈ (stoppedReferencing imageId containers).zip
            (clockReadings rt (stoppedReferencing imageId containers).length
              (rt.containerList true s).2),
          Time.Sub (timeNow p.2) (timeUnix p.1.Created) > i.InvalidDuration) ∧
        (i.ForceRemoveContainer = true → ∀ e ∈ rest, e.isFailedRemoval = false)) ∧
      (¬ ((∀ c ∈ referencing imageId containers, c.State ≠ "running") ∧
          (∀ p ∈ (stoppedReferencing imageId containers).zip
              (clockReadings rt (stoppedReferencing imageId containers).length
                (rt.containerList true s).2),
            Time.Sub (timeNow p.2) (timeUnix p.1.Created) > i.InvalidDuration)) → rest = []) ∧
      (i.ForceRemoveContainer = false → rest = []) ∧
      (((hasValidContainers rt i imageId).run s).val = false →
        i.ForceRemoveContainer = true →
        ∀ c ∈ referencing imageId containers, c.ID ≠ "" →
          Event.containerRemove c.ID true true ∈ rest) := by
  obtain ⟨hse, hsv⟩ := scan_spec rt i imageId containers [] (rt.containerList true s).2
  simp only [hasValidContainers, Act.bind_run, containerList_run, hlist, hse, List.nil_append,
    Except.toOption]
  rcases hsv with ⟨hv, hA, hB⟩ | ⟨hv, hn⟩
  · rw [hv]
    simp only [List.nil_append]
    cases hforce : i.ForceRemoveContainer
    · refine ⟨[], by simp, by simp, ?_, by simp, by simp, by simp⟩
      simp only [Bool.false_eq_true, if_false, Act.pure_run, true_iff]
      exact ⟨hA, hB, by simp⟩
    · generalize ((hasValidContainers.scan rt i imageId containers []).run
        (rt.containerList true s).2).state = st
      obtain ⟨h1, h2, h3⟩ := removeAll_spec rt ((referencing imageId containers).map fun c => c.ID)
        true st
      have hmap : ∀ c ∈ referencing imageId containers,
          c.ID ∈ (referencing imageId containers).map fun c => c.ID :=
        fun c hc => List.mem_map_of_mem _ hc
      cases hra : ((hasValidContainers.removeAll rt
        ((referencing imageId containers).map fun c => c.ID) true).run st).val
      all_goals
        simp only [Act.bind_run, hra, Bool.not_false, Bool.not_true, if_true, if_false,
          Bool.false_eq_true, Act.pure_run, List.append_nil, true_implies, Bool.true_eq_false]
      · refine ⟨_, rfl, h3, ?_, fun hneg => absurd ⟨hA, hB⟩ hneg, by simp, by simp⟩
        simp only [false_iff, not_and]
        intro _ _ hall
        have := h1.2 ⟨rfl, hall⟩
        rw [hra] at this
        exact Bool.noConfusion this
      · refine ⟨_, rfl, h3, ?_, fun hneg => absurd ⟨hA, hB⟩ hneg, by simp, ?_⟩
        · simp only [true_iff]
          exact ⟨hA, hB, (h1.1 hra).2⟩
        · intro c hc hne
          exact h2 hra c.ID (hmap c hc) hne
  · rw [hv]
    refine ⟨[], by simp, by simp, ?_, by simp, by simp, by simp⟩
    simp only [Act.pure_run, Bool.true_eq_false, false_iff]
    rintro ⟨hA, hB, _⟩
    exact hn ⟨hA, hB⟩

/-- The second loop of `hasValidContainers` calls `Remove` for every queued id,
whether or not an earlier removal failed: it opens one client per non-empty id. -/
theorem removeAll_attempts (rt : Runtime σ) (ids : List String) :
    ∀ (allRemoved : Bool) (s : σ),
      List.countP Event.isNewClient
          ((hasValidContainers.removeAll rt ids allRemoved).run s).events =
        List.countP (fun id => decide (id ≠ "")) ids := by
  induction ids with
  | nil =>
    intro allRemoved s
    simp [hasValidContainers.removeAll]
  | cons id rest ih =>
    intro allRemoved s
    simp only [hasValidContainers.removeAll, Act.bind_run]
    rcases Remove_cases rt id s with ⟨hid, h⟩ | ⟨hid, err, hv, he⟩ | ⟨hid, err, hv, he⟩ |
      ⟨hid, hv, he⟩
    · rw [h]
      simp [ih, hid]
    · rw [hv, he]
      simp [ih, hid, Event.isNewClient, List.countP_cons]
    · rw [hv, he]
      simp [ih, hid, Event.isNewClient, List.countP_cons]
    · rw [hv, he]
      simp [ih, hid, Event.isNewClient, List.countP_cons]

/-- When no referencing container blocks the eviction and force-removal is
enabled, `hasValidContainers` attempts the removal of every referencing
container with a non-empty id. -/
theorem hasValidContainers_attempts (rt : Runtime σ) (i : ImageCleaner) (imageId : String)
    (s : σ) (containers : List Container)
    (hlist : (rt.containerList true s).1 = .ok containers)
    (hforce : i.ForceRemoveContainer = true)
    (hA : ∀ c ∈ referencing imageId containers, c.State ≠ "running")
    (hB : ∀ p ∈ (stoppedReferencing imageId containers).zip
        (clockReadings rt (stoppedReferencing imageId containers).length
          (rt.containerList true s).2),
      Time.Sub (timeNow p.2) (timeUnix p.1.Created) > i.InvalidDuration) :
    List.countP Event.isNewClient ((hasValidContainers rt i imageId).run s).events =
      List.countP (fun c => decide (c.ID ≠ "")) (referencing imageId containers) := by
  obtain ⟨hse, hsv⟩ := scan_spec rt i imageId containers [] (rt.containerList true s).2
  simp only [hasValidContainers, Act.bind_run, containerList_run, hlist, hse, List.nil_append,
    Except.toOption]
  rcases hsv with ⟨hv, _, _⟩ | ⟨_, hn⟩
  · rw [hv]
    simp only [List.nil_append, hforce, if_true, Act.bind_run]
    generalize ((hasValidContainers.scan rt i imageId containers []).run
      (rt.containerList true s).2).state = st
    have hcount := removeAll_attempts rt ((referencing imageId containers).map fun c => c.ID)
      true st
    rw [List.countP_map] at hcount
    cases hra : ((hasValidContainers.removeAll rt
        ((referencing imageId containers).map fun c => c.ID) true).run st).val <;>
      simpa [hra, List.countP_cons, Event.isNewClient, Function.comp_def] using hcount
  · exact absurd ⟨hA, hB⟩ hn

theorem hasValidContainers_error (rt : Runtime σ) (i : ImageCleaner) (imageId : String) (s : σ)
    (err : Err) (hlist : (rt.containerList true s).1 = .error err) :
    ((hasValidContainers rt i imageId).run s).val = true ∧
    ((hasValidContainers rt i imageId).run s).events = [Event.containerList true none] := by
  simp [hasValidContainers, hlist, Except.toOption]

/-- An image with one matching tag that is younger than the window is left alone. -/
theorem Clean.image_young (rt : Runtime σ) (i : ImageCleaner) (image : ImageSummary)
    (tag : String) (s : σ) (htag : image.RepoTags = [tag])
    (hage : Time.Sub (timeNow (rt.now s).1) (timeUnix image.Created) < i.InvalidDuration) :
    ((Clean.image rt i image).run s).events = [] := by
  by_cases hm : Regexp.MatchString demoImageName tag = true
  · simp [Clean.image, htag, hm, imageNeedRemove, hage]
  · simp [Clean.image, htag, hm]

/-- An image with one matching tag that is old enough: the iteration runs
`hasValidContainers` and issues the forced, child-pruning image removal exactly
when that returns false. -/
theorem Clean.image_matched (rt : Runtime σ) (i : ImageCleaner) (image : ImageSummary)
    (tag : String) (s : σ) (htag : image.RepoTags = [tag])
    (hmatch : Regexp.MatchString demoImageName tag = true)
    (hage : ¬ Time.Sub (timeNow (rt.now s).1) (timeUnix image.Created) < i.InvalidDuration) :
    ((Clean.image rt i image).run s).events =
      ((hasValidContainers rt i image.ID).run (rt.now s).2).events ++
        (if ((hasValidContainers rt i image.ID).run (rt.now s).2).val = false then
          [Event.imageRemove image.ID true true
            (rt.imageRemove image.ID true true
              ((hasValidContainers rt i image.ID).run (rt.now s).2).state).1.isNone]
        else []) := by
  simp only [Clean.image, htag, hmatch, if_true, imageNeedRemove, Act.bind_run, now_run, hage,
    if_false, Act.pure_run, List.nil_append, List.append_nil]
  cases hv : ((hasValidContainers rt i image.ID).run (rt.now s).2).val <;> simp

theorem guardedRemovals_of_no_imageRemove (events : List Event)
    (h : ∀ e ∈ events, e.isImageRemove = false) : guardedRemovals events := by
  intro pre id force prune ok post heq
  have hmem : Event.imageRemove id force prune ok ∈ events := by
    rw [heq]
    simp
  have := h _ hmem
  simp [Event.isImageRemove] at this

theorem guardedRemovals_append (xs ys : List Event) (hx : guardedRemovals xs)
    (hy : guardedRemovals ys) : guardedRemovals (xs ++ ys) := by
  intro pre id force prune ok post heq
  rcases List.append_eq_append_iff.1 heq with ⟨a, hpre, hys⟩ | ⟨c, hxs, hc⟩
  · obtain ⟨before, containers, after, hb, hsteps, hrem⟩ := hy a id force prune ok post hys
    exact ⟨xs ++ before, containers, after, by rw [hpre, hb, List.append_assoc], hsteps, hrem⟩
  · cases c with
    | nil =>
      simp only [List.append_nil, List.nil_append] at hxs hc
      obtain ⟨before, containers, after, hb, hsteps, hrem⟩ := hy [] id force prune ok post
        (by simpa using hc.symm)
      simp at hb
    | cons d c1 =>
      simp only [List.cons_append, List.cons.injEq] at hc
      obtain ⟨rfl, _⟩ := hc
      exact hx pre id force prune ok c1 hxs

/-- A list whose last element is its only image removal splits there only. -/
theorem split_at_last_imageRemove (xs pre post : List Event) (e r : Event)
    (hxs : ∀ x ∈ xs, x.isImageRemove = false) (hr : r.isImageRemove = true)
    (heq : xs ++ [e] = pre ++ r :: post) : pre = xs ∧ r = e ∧ post = [] := by
  rcases List.append_eq_append_iff.1 heq with ⟨a, hpre, he⟩ | ⟨c, hx, hc⟩
  · cases a with
    | nil =>
      simp only [List.nil_append, List.cons.injEq] at he
      exact ⟨by simpa using hpre, he.1.symm, he.2.symm⟩
    | cons d a1 =>
      simp only [List.cons_append, List.cons.injEq] at he
      have := he.2
      simp at this
  · cases c with
    | nil =>
      simp only [List.nil_append, List.cons.injEq, List.append_nil] at hc hx
      exact ⟨hx.symm, hc.1, hc.2⟩
    | cons d c1 =>
      simp only [List.cons_append, List.cons.injEq] at hc
      have hmem : r ∈ xs := by
        rw [hx, ← hc.1]
        simp
      have := hxs r hmem
      rw [hr] at this
      exact Bool.noConfusion this

theorem isImageRemove_of_isRemovalStep (e : Event) (h : e.isRemovalStep = true) :
    e.isImageRemove = false := by
  cases e <;> simp [Event.isRemovalStep, Event.isImageRemove] at h ⊢

/-- With force-removal enabled, the trace of one iteration of Clean is guarded. -/
theorem Clean.image_guarded (rt : Runtime σ) (i : ImageCleaner) (image : ImageSummary) (s : σ)
    (hforce : i.ForceRemoveContainer = true) :
    guardedRemovals ((Clean.image rt i image).run s).events := by
  by_cases h1 : ∃ tag, image.RepoTags = [tag] ∧ Regexp.MatchString demoImageName tag = true ∧
      ¬ Time.Sub (timeNow (rt.now s).1) (timeUnix image.Created) < i.InvalidDuration
  · obtain ⟨tag, htag, hmatch, hage⟩ := h1
    rw [Clean.image_matched rt i image tag s htag hmatch hage]
    rcases hl : (rt.containerList true (rt.now s).2).1 with err | containers
    · obtain ⟨hv, he⟩ := hasValidContainers_error rt i image.ID (rt.now s).2 err hl
      rw [hv, he]
      exact guardedRemovals_of_no_imageRemove _ (by simp [Event.isImageRemove])
    · obtain ⟨rest, hev, hsteps, _, _, _, hrem⟩ :=
        hasValidContainers_listed rt i image.ID (rt.now s).2 containers hl
      have hno : ∀ x ∈ Event.containerList true (some containers) :: rest,
          x.isImageRemove = false := by
        intro x hx
        rcases List.mem_cons.1 hx with rfl | hx
        · rfl
        · exact isImageRemove_of_isRemovalStep x (hsteps x hx)
      cases hv : ((hasValidContainers rt i image.ID).run (rt.now s).2).val
      · rw [hev]
        simp only [if_true]
        intro pre id force prune ok post heq
        obtain ⟨hpre, hr, _⟩ := split_at_last_imageRemove _ pre post _
          (Event.imageRemove id force prune ok) hno rfl heq
        simp only [Event.imageRemove.injEq] at hr
        obtain ⟨rfl, _, _, _⟩ := hr
        refine ⟨[], containers, rest, by simpa using hpre, hsteps, ?_⟩
        intro c hc hid hne
        exact hrem hv hforce c (by simp [referencing, hc, hid]) hne
      · rw [hev]
        simp only [Bool.true_eq_false, if_false, List.append_nil]
        exact guardedRemovals_of_no_imageRemove _ hno
  · have hnil : ((Clean.image rt i image).run s).events = [] := by
      rcases htags : image.RepoTags with _ | ⟨tag, _ | ⟨t2, ts⟩⟩
      · simp [Clean.image, htags]
      · by_cases hm : Regexp.MatchString demoImageName tag = true
        · by_cases hage : Time.Sub (timeNow (rt.now s).1) (timeUnix image.Created) < i.InvalidDuration
          · exact Clean.image_young rt i image tag s htags hage
          · exact absurd ⟨tag, htags, hm, hage⟩ h1
        · simp [Clean.image, htags, hm]
      · simp [Clean.image, htags]
    rw [hnil]
    exact guardedRemovals_of_no_imageRemove _ (by simp)

theorem Clean.images_guarded (rt : Runtime σ) (i : ImageCleaner)
    (hforce : i.ForceRemoveContainer = true) (images : List ImageSummary) :
    ∀ s : σ, guardedRemovals ((Clean.images rt i images).run s).events := by
  induction images with
  | nil =>
    intro s
    exact guardedRemovals_of_no_imageRemove _ (by simp [Clean.images])
  | cons image rest ih =>
    intro s
    rw [Clean.images_cons]
    exact guardedRemovals_append _ _ (Clean.image_guarded rt i image s hforce) (ih _)

/-- The shape of a call of Clean: the connection fails; the image listing
fails; or the loop runs over the listing and the client is closed. -/
theorem Clean_cases (rt : Runtime σ) (i : ImageCleaner) (s : σ) :
    (∃ err, (rt.newClient s).1 = some err ∧
      ((Clean rt i).run s).val = some ("failed to connect docker, " ++ err) ∧
      ((Clean rt i).run s).events = [Event.newClient false]) ∨
    (∃ err, (rt.newClient s).1 = none ∧
      (rt.imageList true (rt.newClient s).2).1 = .error err ∧
      ((Clean rt i).run s).val = some ("failed to list the docker images, " ++ err) ∧
      ((Clean rt i).run s).events =
        [Event.newClient true, Event.imageList true false, Event.close]) ∨
    (∃ images, (rt.newClient s).1 = none ∧
      (rt.imageList true (rt.newClient s).2).1 = .ok images ∧
      ((Clean rt i).run s).val = none ∧
      ((Clean rt i).run s).events =
        [Event.newClient true, Event.imageList true true] ++
          ((Clean.images rt i images).run (rt.imageList true (rt.newClient s).2).2).events ++
          [Event.close]) := by
  simp only [Clean, Act.bind_run, newClient_run]
  split
  · rename_i err hnc
    exact Or.inl ⟨err, hnc, by simp [hnc]⟩
  · rename_i hnc
    right
    simp only [imageList_run, Act.bind_run]
    split
    · rename_i err hl
      exact Or.inl ⟨err, hnc, hl, by simp [hnc, hl, Except.toBool]⟩
    · rename_i images hl
      exact Or.inr ⟨images, hnc, hl, by simp [hnc, hl, Except.toBool]⟩

theorem Clean.image_removes (rt : Runtime σ) (i : ImageCleaner) (image : ImageSummary)
    (tag : String) (s : σ) (htag : image.RepoTags = [tag])
    (hmatch : Regexp.MatchString demoImageName tag = true)
    (hneed : ((imageNeedRemove rt i image.ID (timeUnix image.Created)).run s).val = true) :
    ∃ ok, Event.imageRemove image.ID true true ok ∈ ((Clean.image rt i image).run s).events := by
  simp only [Clean.image, htag, hmatch, if_true, Act.bind_run, hneed, imageRemove_run,
    Act.pure_run, List.append_nil]
  exact ⟨_, List.mem_append_right _ (List.mem_singleton.2 rfl)⟩

end CleanLemmas

/-! ## Run, Start and Wait -/

section RunLemmas

variable {σ : Type}

theorem containerLogs_cases (rt : Runtime σ) (lib : Lib) (id tail : String) (s : σ) :
    (∃ err, (containerLogs rt lib id tail).run s =
      ⟨.error err, [Event.containerLogs id tail none], (rt.containerLogs id tail s).2⟩) ∨
    (∃ raw, (containerLogs rt lib id tail).run s =
      ⟨.ok (lib.strip raw), [Event.containerLogs id tail (some raw)],
        (rt.containerLogs id tail s).2⟩) := by
  simp only [Docker.containerLogs, Act.bind_run, clientContainerLogs_run]
  rcases h : (rt.containerLogs id tail s).1 with err | (err | byt)
  · exact Or.inl ⟨err, by simp⟩
  · exact Or.inl ⟨err, by simp⟩
  · exact Or.inr ⟨byt, by simp⟩

/-- The three ways the tail of Run ends: log retrieval fails; the stop call
fails; or stop succeeds and removal is attempted. -/
theorem Run.collect_cases (rt : Runtime σ) (lib : Lib) (id : String) (exitCode : Int) (s : σ) :
    (∃ err, ((Run.collect rt lib id exitCode).run s).val = (0, none, some err) ∧
      ((Run.collect rt lib id exitCode).run s).events = [Event.containerLogs id "" none]) ∨
    (∃ raw, ((Run.collect rt lib id exitCode).run s).val = (0, some (lib.strip raw), none) ∧
      ((Run.collect rt lib id exitCode).run s).events =
        [Event.containerLogs id "" (some raw), Event.containerStop id 2 false]) ∨
    (∃ raw ok, ((Run.collect rt lib id exitCode).run s).val =
        (exitCode, some (lib.strip raw), none) ∧
      ((Run.collect rt lib id exitCode).run s).events =
        [Event.containerLogs id "" (some raw), Event.containerStop id 2 true,
          Event.containerRemove id true ok]) := by
  rcases containerLogs_cases rt lib id "" s with ⟨err, h⟩ | ⟨raw, h⟩
  · exact Or.inl ⟨err, by simp [Run.collect, h]⟩
  · right
    simp only [Run.collect, Act.bind_run, h, now_run, containerStop_run, containerRemove_run]
    split
    · exact Or.inl ⟨raw, by simp_all⟩
    · exact Or.inr ⟨raw, _, by simp_all; rfl⟩

/-- The unbounded wait of Run: it blocks, fails with the wait error, or goes
on to `Run.collect` with -1 (nil error on the error channel) or the delivered status. -/
theorem Run.wait_unbounded (rt : Runtime σ) (lib : Lib) (id : String) (options : Options) (s : σ)
    (h : ∀ n, options "timeout" = some (.int n) → n ≤ 0) :
    (((Run.wait rt lib id options).run s).val = .blocked ∧
      ((Run.wait rt lib id options).run s).events = [Event.select2 .never]) ∨
    (∃ e, ((Run.wait rt lib id options).run s).val = .returned (0, none, some e) ∧
      ((Run.wait rt lib id options).run s).events = [Event.select2 (.errC (some e))]) ∨
    (∃ s1, ((Run.wait rt lib id options).run s).val =
        .returned ((Run.collect rt lib id (-1)).run s1).val ∧
      ((Run.wait rt lib id options).run s).events =
        Event.select2 (.errC none) :: ((Run.collect rt lib id (-1)).run s1).events) ∨
    (∃ st s1, ((Run.wait rt lib id options).run s).val =
        .returned ((Run.collect rt lib id st.StatusCode).run s1).val ∧
      ((Run.wait rt lib id options).run s).events =
        Event.select2 (.statusC st) :: ((Run.collect rt lib id st.StatusCode).run s1).events) := by
  have ht : ¬ ((match options "timeout" with
      | some (.int n) => n
      | _ => (0 : Int)) > 0) := by
    split
    · rename_i n hn
      exact not_lt.mpr (h n hn)
    · simp
  simp only [Run.wait, ht, if_false, Act.bind_run, select2_run, now_run]
  rcases harm : (rt.select2 s).1 with err | st | _
  · cases err with
    | none => exact Or.inr (Or.inr (Or.inl ⟨(rt.now (rt.select2 s).2).2, by simp⟩))
    | some e => exact Or.inr (Or.inl ⟨e, by simp⟩)
  · exact Or.inr (Or.inr (Or.inr ⟨st, (rt.now (rt.select2 s).2).2, by simp⟩))
  · exact Or.inl (by simp)

/-- The bounded wait of Run: it fails with the wait error, or goes on to
`Run.collect` with -1 (the timer fired, or a nil error) or the delivered status. -/
theorem Run.wait_bounded (rt : Runtime σ) (lib : Lib) (id : String) (options : Options) (s : σ)
    (n : Int) (hn : options "timeout" = some (.int n)) (hpos : 0 < n) :
    (∃ e, ((Run.wait rt lib id options).run s).val = .returned (0, none, some e) ∧
      ((Run.wait rt lib id options).run s).events =
        [Event.select3 (wrap64 (n * 1000000000)) (.errC (some e))]) ∨
    (∃ s1, ((Run.wait rt lib id options).run s).val =
        .returned ((Run.collect rt lib id (-1)).run s1).val ∧
      ((Run.wait rt lib id options).run s).events =
        Event.select3 (wrap64 (n * 1000000000)) (.errC none) ::
          ((Run.collect rt lib id (-1)).run s1).events) ∨
    (∃ st s1, ((Run.wait rt lib id options).run s).val =
        .returned ((Run.collect rt lib id st.StatusCode).run s1).val ∧
      ((Run.wait rt lib id options).run s).events =
        Event.select3 (wrap64 (n * 1000000000)) (.statusC st) ::
          ((Run.collect rt lib id st.StatusCode).run s1).events) ∨
    (∃ s1, ((Run.wait rt lib id options).run s).val =
        .returned ((Run.collect rt lib id (-1)).run s1).val ∧
      ((Run.wait rt lib id options).run s).events =
        Event.select3 (wrap64 (n * 1000000000)) .timerC ::
          ((Run.collect rt lib id (-1)).run s1).events) := by
  simp only [Run.wait, hn, gt_iff_lt, hpos, if_true, Act.bind_run, select3_run]
  rcases harm : (rt.select3 (wrap64 (n * 1000000000)) s).1 with err | st | _
  · cases err with
    | none => exact Or.inr (Or.inl ⟨(rt.select3 (wrap64 (n * 1000000000)) s).2, by simp⟩)
    | some e => exact Or.inl ⟨e, by simp⟩
  · exact Or.inr (Or.inr (Or.inl ⟨st, (rt.select3 (wrap64 (n * 1000000000)) s).2, by simp⟩))
  · exact Or.inr (Or.inr (Or.inr ⟨(rt.select3 (wrap64 (n * 1000000000)) s).2, by simp⟩))

theorem timeout_dichotomy (options : Options) :
    (∀ n, options "timeout" = some (.int n) → n ≤ 0) ∨
    (∃ n, options "timeout" = some (.int n) ∧ 0 < n) := by
  by_cases h : ∃ n, options "timeout" = some (.int n) ∧ 0 < n
  · exact Or.inr h
  · left
    intro n hn
    by_contra hc
    exact h ⟨n, hn, not_le.mp hc⟩

theorem Run.collect_events (rt : Runtime σ) (lib : Lib) (id : String) (exitCode : Int) (s : σ)
    (e : Event) (he : e ∈ ((Run.collect rt lib id exitCode).run s).events) :
    (∃ raw, e = Event.containerLogs id "" raw) ∨ (∃ ok, e = Event.containerStop id 2 ok) ∨
      (∃ ok, e = Event.containerRemove id true ok) := by
  rcases Run.collect_cases rt lib id exitCode s with ⟨_, _, h⟩ | ⟨_, _, h⟩ | ⟨_, _, _, h⟩
  all_goals
    rw [h] at he
    simp only [List.mem_cons, List.mem_singleton, List.not_mem_nil, or_false] at he
    rcases he with rfl | rfl | rfl <;> simp

/-- The wait of Run never panics, and issues only the select, log, stop and removal requests. -/
theorem Run.wait_events (rt : Runtime σ) (lib : Lib) (id : String) (options : Options) (s : σ) :
    ((Run.wait rt lib id options).run s).val ≠ .panicked ∧
    ∀ e ∈ ((Run.wait rt lib id options).run s).events,
      (∃ arm, e = Event.select2 arm) ∨ (∃ d arm, e = Event.select3 d arm) ∨
      (∃ raw, e = Event.containerLogs id "" raw) ∨ (∃ ok, e = Event.containerStop id 2 ok) ∨
      (∃ ok, e = Event.containerRemove id true ok) := by
  have hc := fun code s1 e => Run.collect_events rt lib id code s1 e
  rcases timeout_dichotomy options with h | ⟨n, hn, hpos⟩
  · rcases Run.wait_unbounded rt lib id options s h with
      ⟨hv, he⟩ | ⟨_, hv, he⟩ | ⟨_, hv, he⟩ | ⟨_, _, hv, he⟩
    all_goals
      rw [hv, he]
      refine ⟨by simp, ?_⟩
      intro e hmem
      simp only [List.mem_cons, List.mem_singleton, List.not_mem_nil, or_false] at hmem
      first
        | (rcases hmem with rfl | hmem
           · simp
           · exact Or.inr (Or.inr (hc _ _ e hmem)))
        | (subst hmem; simp)
  · rcases Run.wait_bounded rt lib id options s n hn hpos with
      ⟨_, hv, he⟩ | ⟨_, hv, he⟩ | ⟨_, _, hv, he⟩ | ⟨_, hv, he⟩
    all_goals
      rw [hv, he]
      refine ⟨by simp, ?_⟩
      intro e hmem
      simp only [List.mem_cons, List.mem_singleton, List.not_mem_nil, or_false] at hmem
      first
        | (rcases hmem with rfl | hmem
           · simp
           · exact Or.inr (Or.inr (hc _ _ e hmem)))
        | (subst hmem; simp)

/-- The shape of a call of Run: the connection fails; creation fails; start
fails; or the wait is entered after create, start and the wait request. -/
theorem Run_cases (rt : Runtime σ) (lib : Lib) (imageName containerName : String)
    (cmd : List String) (options : Options) (bindPaths : List String) (s : σ) :
    (∃ err, ((Run rt lib imageName containerName cmd options bindPaths).run s).val =
        .returned (0, none, some err) ∧
      ((Run rt lib imageName containerName cmd options bindPaths).run s).events =
        [Event.newClient false]) ∨
    (∃ err, ((Run rt lib imageName containerName cmd options bindPaths).run s).val =
        .returned (0, none, some err) ∧
      ((Run rt lib imageName containerName cmd options bindPaths).run s).events =
        [Event.newClient true,
          Event.containerCreate (Run.cfg lib imageName cmd options)
            (Run.hostConfig lib options (pairMounts bindPaths)) containerName false,
          Event.close]) ∨
    (∃ id err, ((Run rt lib imageName containerName cmd options bindPaths).run s).val =
        .returned (0, none, some err) ∧
      ((Run rt lib imageName containerName cmd options bindPaths).run s).events =
        [Event.newClient true,
          Event.containerCreate (Run.cfg lib imageName cmd options)
            (Run.hostConfig lib options (pairMounts bindPaths)) containerName true,
          Event.containerStart id false, Event.close]) ∨
    (∃ id s1, ((Run rt lib imageName containerName cmd options bindPaths).run s).val =
        ((Run.wait rt lib id options).run s1).val ∧
      ((Run rt lib imageName containerName cmd options bindPaths).run s).events =
        [Event.newClient true,
          Event.containerCreate (Run.cfg lib imageName cmd options)
            (Run.hostConfig lib options (pairMounts bindPaths)) containerName true,
          Event.containerStart id true, Event.containerWait id] ++
          ((Run.wait rt lib id options).run s1).events ++
          (if ((Run.wait rt lib id options).run s1).val = .blocked then [] else [Event.close])) := by
  simp only [Run, bindMounts_eq, Act.bind_run, newClient_run]
  split
  · rename_i err herr
    exact Or.inl ⟨err, by simp [herr]⟩
  · rename_i hnc
    right
    simp only [containerCreate_run, Act.bind_run]
    split
    · rename_i err hcr
      exact Or.inl ⟨err, by simp [hnc, hcr, Except.toBool]⟩
    · rename_i id hcr
      right
      simp only [now_run, containerStart_run, Act.bind_run]
      split
      · rename_i err hst
        exact Or.inl ⟨id, err, by simp [hnc, hcr, hst, Except.toBool]⟩
      · rename_i hst
        right
        refine ⟨id, (rt.now (rt.containerWait id (rt.containerStart id
          (rt.now (rt.containerCreate (Run.cfg lib imageName cmd options)
            (Run.hostConfig lib options (pairMounts bindPaths)) containerName
              (rt.newClient s).2).2).2).2)).2, ?_⟩
        simp only [containerWait_run, now_run, Act.bind_run]
        split
        · rename_i hw
          simp [hnc, hcr, hst, hw, Except.toBool]
        · rename_i hw
          rw [if_neg fun hb => hw hb]
          simp [hnc, hcr, hst, Except.toBool]

/-- The shape of a call of Start. -/
theorem Start_cases (rt : Runtime σ) (lib : Lib) (imageName containerName : String)
    (autoRemove : Bool) (cmd : List String) (options : Options) (bindPaths : List String) (s : σ) :
    (∃ err, ((Start rt lib imageName containerName autoRemove cmd options bindPaths).run s).val =
        .returned ("", some err) ∧
      ((Start rt lib imageName containerName autoRemove cmd options bindPaths).run s).events =
        [Event.newClient false]) ∨
    (∃ err, ((Start rt lib imageName containerName autoRemove cmd options bindPaths).run s).val =
        .returned ("", some err) ∧
      ((Start rt lib imageName containerName autoRemove cmd options bindPaths).run s).events =
        [Event.newClient true,
          Event.containerCreate (Start.cfg lib imageName cmd options)
            (Start.hostConfig lib autoRemove options (pairMounts bindPaths)) containerName false,
          Event.close]) ∨
    (∃ id err, ((Start rt lib imageName containerName autoRemove cmd options bindPaths).run s).val =
        .returned ("", some err) ∧
      ((Start rt lib imageName containerName autoRemove cmd options bindPaths).run s).events =
        [Event.newClient true,
          Event.containerCreate (Start.cfg lib imageName cmd options)
            (Start.hostConfig lib autoRemove options (pairMounts bindPaths)) containerName true,
          Event.containerStart id false, Event.close]) ∨
    (∃ id, ((Start rt lib imageName containerName autoRemove cmd options bindPaths).run s).val =
        .returned (id, none) ∧
      ((Start rt lib imageName containerName autoRemove cmd options bindPaths).run s).events =
        [Event.newClient true,
          Event.containerCreate (Start.cfg lib imageName cmd options)
            (Start.hostConfig lib autoRemove options (pairMounts bindPaths)) containerName true,
          Event.containerStart id true, Event.goWait id, Event.close]) := by
  simp only [Start, bindMounts_eq, Act.bind_run, newClient_run]
  split
  · rename_i err herr
    exact Or.inl ⟨err, by simp [herr]⟩
  · rename_i hnc
    right
    simp only [now_run, containerCreate_run, Act.bind_run]
    split
    · rename_i err hcr
      exact Or.inl ⟨err, by simp [hnc, hcr, Except.toBool]⟩
    · rename_i id hcr
      right
      simp only [containerStart_run, Act.bind_run]
      split
      · rename_i err hst
        exact Or.inl ⟨id, err, by simp [hnc, hcr, hst, Except.toBool]⟩
      · rename_i hst
        exact Or.inr ⟨id, by simp [hnc, hcr, hst, Except.toBool]⟩

theorem waitError_events :
    ((Wait scenarioRuntime "c1" (some recordCallback) []).run waitError).events =
      [Event.containerWait "c1", Event.select2 (.errC (some "boom"))] := rfl

/-- The tail of Run after a successful stop call: the exit code left by the
wait is returned with the stripped logs and no error. -/
theorem Run.collect_stop_success (rt : Runtime σ) (lib : Lib) (id id1 : String) (exitCode : Int)
    (s : σ) (h : Event.containerStop id1 2 true ∈ ((Run.collect rt lib id exitCode).run s).events) :
    ∃ raw, ((Run.collect rt lib id exitCode).run s).val = (exitCode, some (lib.strip raw), none) ∧
      Event.containerLogs id "" (some raw) ∈ ((Run.collect rt lib id exitCode).run s).events := by
  rcases Run.collect_cases rt lib id exitCode s with ⟨_, _, he⟩ | ⟨_, _, he⟩ | ⟨raw, _, hv, he⟩
  · simp [he] at h
  · simp [he] at h
  · exact ⟨raw, hv, by simp [he]⟩

/-- The tail of Run after a failed stop call: exit code 0 is returned with the
stripped logs and no error, whatever exit code the wait left. -/
theorem Run.collect_stop_failure (rt : Runtime σ) (lib : Lib) (id id1 : String) (exitCode : Int)
    (s : σ) (h : Event.containerStop id1 2 false ∈ ((Run.collect rt lib id exitCode).run s).events) :
    ∃ raw, ((Run.collect rt lib id exitCode).run s).val = (0, some (lib.strip raw), none) ∧
      Event.containerLogs id "" (some raw) ∈ ((Run.collect rt lib id exitCode).run s).events := by
  rcases Run.collect_cases rt lib id exitCode s with ⟨_, _, he⟩ | ⟨raw, hv, he⟩ | ⟨_, _, _, he⟩
  · simp [he] at h
  · exact ⟨raw, hv, by simp [he]⟩
  · simp [he] at h

/-- A stop event in the trace of the wait phase comes from `Run.collect`. -/
theorem Run.wait_stop_event (rt : Runtime σ) (lib : Lib) (id id1 : String) (options : Options)
    (s : σ) (ok : Bool)
    (h : Event.containerStop id1 2 ok ∈ ((Run.wait rt lib id options).run s).events) :
    ∃ sel code s1,
      ((Run.wait rt lib id options).run s).val =
        .returned ((Run.collect rt lib id code).run s1).val ∧
      ((Run.wait rt lib id options).run s).events =
        sel :: ((Run.collect rt lib id code).run s1).events ∧
      Event.containerStop id1 2 ok ∈ ((Run.collect rt lib id code).run s1).events ∧
      ((∃ st, code = st.StatusCode ∧
          (sel = Event.select2 (.statusC st) ∨ ∃ d, sel = Event.select3 d (.statusC st))) ∨
        (code = -1 ∧ (sel = Event.select2 (.errC none) ∨
          ∃ d, sel = Event.select3 d (.errC none) ∨ sel = Event.select3 d .timerC))) := by
  rcases timeout_dichotomy options with hopt | ⟨n, hn, hpos⟩
  · rcases Run.wait_unbounded rt lib id options s hopt with
      ⟨_, he⟩ | ⟨_, _, he⟩ | ⟨s1, hv, he⟩ | ⟨st, s1, hv, he⟩
    · simp [he] at h
    · simp [he] at h
    · refine ⟨_, -1, s1, hv, he, ?_, Or.inr ⟨rfl, Or.inl rfl⟩⟩
      rw [he] at h
      simpa using h
    · refine ⟨_, st.StatusCode, s1, hv, he, ?_, Or.inl ⟨st, rfl, Or.inl rfl⟩⟩
      rw [he] at h
      simpa using h
  · rcases Run.wait_bounded rt lib id options s n hn hpos with
      ⟨_, _, he⟩ | ⟨s1, hv, he⟩ | ⟨st, s1, hv, he⟩ | ⟨s1, hv, he⟩
    · simp [he] at h
    · refine ⟨_, -1, s1, hv, he, ?_, Or.inr ⟨rfl, Or.inr ⟨_, Or.inl rfl⟩⟩⟩
      rw [he] at h
      simpa using h
    · refine ⟨_, st.StatusCode, s1, hv, he, ?_, Or.inl ⟨st, rfl, Or.inr ⟨_, rfl⟩⟩⟩
      rw [he] at h
      simpa using h
    · refine ⟨_, -1, s1, hv, he, ?_, Or.inr ⟨rfl, Or.inr ⟨_, Or.inr rfl⟩⟩⟩
      rw [he] at h
      simpa using h

/-- A stop event in the trace of Run comes from its wait phase, whose value Run returns. -/
theorem Run_stop_event (rt : Runtime σ) (lib : Lib) (imageName containerName : String)
    (cmd : List String) (options : Options) (bindPaths : List String) (s : σ) (id1 : String)
    (ok : Bool)
    (h : Event.containerStop id1 2 ok ∈
      ((Run rt lib imageName containerName cmd options bindPaths).run s).events) :
    ∃ id s1, ((Run rt lib imageName containerName cmd options bindPaths).run s).val =
        ((Run.wait rt lib id options).run s1).val ∧
      Event.containerStop id1 2 ok ∈ ((Run.wait rt lib id options).run s1).events ∧
      ∀ e ∈ ((Run.wait rt lib id options).run s1).events,
        e ∈ ((Run rt lib imageName containerName cmd options bindPaths).run s).events := by
  rcases Run_cases rt lib imageName containerName cmd options bindPaths s with
    ⟨_, _, he⟩ | ⟨_, _, he⟩ | ⟨_, _, _, he⟩ | ⟨id, s1, hv, he⟩
  · simp [he] at h
  · simp [he] at h
  · simp [he] at h
  · refine ⟨id, s1, hv, ?_, ?_⟩
    · rw [he] at h
      simp only [List.mem_append, List.mem_cons, List.mem_singleton, List.not_mem_nil,
        or_false, false_or, reduceCtorEq] at h
      rcases h with h | h
      · exact h
      · split at h <;> simp at h
    · intro e hmem
      rw [he]
      simp only [List.mem_append]
      exact Or.inl (Or.inr hmem)

/-- What Run returns once the stop call was reached.  After a successful stop
it returns the stripped logs with the status code delivered by the wait, or -1
when the timer fired or the error channel yielded a nil error; after a failed
stop it returns the stripped logs with exit code 0. -/
theorem Run_result_after_stop (rt : Runtime σ) (lib : Lib) (imageName containerName : String)
    (cmd : List String) (options : Options) (bindPaths : List String) (s : σ) (id1 : String) :
    (Event.containerStop id1 2 true ∈
        ((Run rt lib imageName containerName cmd options bindPaths).run s).events →
      ∃ raw code,
        ((Run rt lib imageName containerName cmd options bindPaths).run s).val =
          .returned (code, some (lib.strip raw), none) ∧
        ((∃ st, code = st.StatusCode ∧
            (Event.select2 (.statusC st) ∈
                ((Run rt lib imageName containerName cmd options bindPaths).run s).events ∨
              ∃ d, Event.select3 d (.statusC st) ∈
                ((Run rt lib imageName containerName cmd options bindPaths).run s).events)) ∨
          (code = -1 ∧
            (Event.select2 (.errC none) ∈
                ((Run rt lib imageName containerName cmd options bindPaths).run s).events ∨
              ∃ d, Event.select3 d (.errC none) ∈
                  ((Run rt lib imageName containerName cmd options bindPaths).run s).events ∨
                Event.select3 d .timerC ∈
                  ((Run rt lib imageName containerName cmd options bindPaths).run s).events)))) ∧
    (Event.containerStop id1 2 false ∈
        ((Run rt lib imageName containerName cmd options bindPaths).run s).events →
      ∃ raw, ((Run rt lib imageName containerName cmd options bindPaths).run s).val =
        .returned (0, some (lib.strip raw), none)) := by
  constructor
  · intro h
    obtain ⟨id, s1, hv, hw, hsub⟩ :=
      Run_stop_event rt lib imageName containerName cmd options bindPaths s id1 true h
    obtain ⟨sel, code, s2, hwv, hwe, hc, hsel⟩ := Run.wait_stop_event rt lib id id1 options s1 true hw
    obtain ⟨raw, hcv, _⟩ := Run.collect_stop_success rt lib id id1 code s2 hc
    have hselmem : sel ∈ ((Run rt lib imageName containerName cmd options bindPaths).run s).events :=
      hsub sel (by rw [hwe]; exact List.mem_cons_self _ _)
    refine ⟨raw, code, by rw [hv, hwv, hcv], ?_⟩
    rcases hsel with ⟨st, hcode, hs | ⟨d, hs⟩⟩ | ⟨hcode, hs | ⟨d, hs | hs⟩⟩
    · exact Or.inl ⟨st, hcode, Or.inl (hs ▸ hselmem)⟩
    · exact Or.inl ⟨st, hcode, Or.inr ⟨d, hs ▸ hselmem⟩⟩
    · exact Or.inr ⟨hcode, Or.inl (hs ▸ hselmem)⟩
    · exact Or.inr ⟨hcode, Or.inr ⟨d, Or.inl (hs ▸ hselmem)⟩⟩
    · exact Or.inr ⟨hcode, Or.inr ⟨d, Or.inr (hs ▸ hselmem)⟩⟩
  · intro h
    obtain ⟨id, s1, hv, hw, _⟩ :=
      Run_stop_event rt lib imageName containerName cmd options bindPaths s id1 false h
    obtain ⟨sel, code, s2, hwv, _, hc, _⟩ := Run.wait_stop_event rt lib id id1 options s1 false hw
    obtain ⟨raw, hcv, _⟩ := Run.collect_stop_failure rt lib id id1 code s2 hc
    exact ⟨raw, by rw [hv, hwv, hcv]⟩

/-- Run on the healthy scenario: the status code 3 delivered by the wait is returned. -/
theorem Run_healthy :
    ((Run scenarioRuntime scenarioLib "img" "name" [] noOptions []).run healthyRun).val =
      .returned (3, some [104, 105], none) := by
  simp only [Run, bindMounts_eq]
  rfl

end RunLemmas

/-! ## Claims on Run, Start and Wait -/

/-- C8. For every bind-path sequence, of even or odd length, the mount loop of
Run and Start reads no index out of range and builds exactly `n / 2` bind
mounts, the k-th with source `bindPaths[2k]` and target `bindPaths[2k+1]`; this
is the mount list of every container-creation request Run and Start issue, and
neither call panics. -/
theorem bindMounts_pairs_positionally (bindPaths : List String) :
    ∃ mounts, bindMounts bindPaths = some mounts ∧
      mounts.length = bindPaths.length / 2 ∧
      (∀ k, k < bindPaths.length / 2 → ∃ src tgt,
        bindPaths[2 * k]? = some src ∧ bindPaths[2 * k + 1]? = some tgt ∧
        mounts[k]? = some { Type_ := "bind", Source := src, Target := tgt }) ∧
      (∀ (σ : Type) (rt : Runtime σ) (lib : Lib) (imageName containerName : String)
        (cmd : List String) (options : Options) (s : σ) (cfg : Config) (host : HostConfig)
        (name : String) (ok : Bool),
        Event.containerCreate cfg host name ok ∈
          ((Run rt lib imageName containerName cmd options bindPaths).run s).events →
        host.Mounts = mounts) ∧
      (∀ (σ : Type) (rt : Runtime σ) (lib : Lib) (imageName containerName : String)
        (autoRemove : Bool) (cmd : List String) (options : Options) (s : σ) (cfg : Config)
        (host : HostConfig) (name : String) (ok : Bool),
        Event.containerCreate cfg host name ok ∈
          ((Start rt lib imageName containerName autoRemove cmd options bindPaths).run s).events →
        host.Mounts = mounts) ∧
      (∀ (σ : Type) (rt : Runtime σ) (lib : Lib) (imageName containerName : String)
        (autoRemove : Bool) (cmd : List String) (options : Options) (s : σ),
        ((Run rt lib imageName containerName cmd options bindPaths).run s).val ≠ .panicked ∧
        ((Start rt lib imageName containerName autoRemove cmd options bindPaths).run s).val ≠
          .panicked) := by
  obtain ⟨hlen, hget⟩ := pairMounts_spec bindPaths.length bindPaths (le_refl _)
  refine ⟨pairMounts bindPaths, bindMounts_eq bindPaths, hlen, hget, ?_, ?_, ?_⟩
  · intro σ rt lib imageName containerName cmd options s cfg host name ok h
    rcases Run_cases rt lib imageName containerName cmd options bindPaths s with
      ⟨_, _, he⟩ | ⟨_, _, he⟩ | ⟨_, _, _, he⟩ | ⟨id, s1, _, he⟩
    · simp [he] at h
    · simp [he] at h
      rw [h.2.1]
      rfl
    · simp [he] at h
      rw [h.2.1]
      rfl
    · rw [he] at h
      simp only [List.mem_append, List.mem_cons, List.mem_singleton, List.not_mem_nil,
        or_false, false_or, Event.containerCreate.injEq, reduceCtorEq] at h
      rcases h with (h | h) | h
      · rw [h.2.1]
        rfl
      · rcases (Run.wait_events rt lib id options s1).2 _ h with
          ⟨_, h1⟩ | ⟨_, _, h1⟩ | ⟨_, h1⟩ | ⟨_, h1⟩ | ⟨_, h1⟩ <;> cases h1
      · split at h <;> simp at h
  · intro σ rt lib imageName containerName autoRemove cmd options s cfg host name ok h
    rcases Start_cases rt lib imageName containerName autoRemove cmd options bindPaths s with
      ⟨_, _, he⟩ | ⟨_, _, he⟩ | ⟨_, _, _, he⟩ | ⟨_, _, he⟩
    · simp [he] at h
    · simp [he] at h
      rw [h.2.1]
      rfl
    · simp [he] at h
      rw [h.2.1]
      rfl
    · simp [he] at h
      rw [h.2.1]
      rfl
  · intro σ rt lib imageName containerName autoRemove cmd options s
    constructor
    · rcases Run_cases rt lib imageName containerName cmd options bindPaths s with
        ⟨_, hv, _⟩ | ⟨_, hv, _⟩ | ⟨_, _, hv, _⟩ | ⟨id, s1, hv, _⟩
      · simp [hv]
      · simp [hv]
      · simp [hv]
      · rw [hv]
        exact (Run.wait_events rt lib id options s1).1
    · rcases Start_cases rt lib imageName containerName autoRemove cmd options bindPaths s with
        ⟨_, hv, _⟩ | ⟨_, hv, _⟩ | ⟨_, _, hv, _⟩ | ⟨_, hv, _⟩ <;> simp [hv]


/-- C1 (code defect). On a run in which creation, start, the wait and log
retrieval all succeed and the wait reports status 3, a failing stop call makes
Run return exit code 0 with the output and no error, not the status 3 of the
wait: line 178 returns the constant 0 where line 188 returns `exitCode`. -/
theorem Run_stop_failure_returns_zero :
    ((Run scenarioRuntime scenarioLib "img" "name" [] noOptions []).run stopFails).val =
      .returned (0, some [104, 105], none) ∧
    ((Run scenarioRuntime scenarioLib "img" "name" [] noOptions []).run stopFails).events =
      [Event.newClient true,
        Event.containerCreate (Run.cfg scenarioLib "img" [] noOptions)
          (Run.hostConfig scenarioLib noOptions []) "name" true,
        Event.containerStart "c1" true, Event.containerWait "c1",
        Event.select2 (.statusC { Error := none, StatusCode := 3 }),
        Event.containerLogs "c1" "" (some [104, 105]),
        Event.containerStop "c1" 2 false, Event.close] := by
  simp only [Run, bindMounts_eq]
  exact ⟨rfl, rfl⟩

/-- C4 (code defect). With `timeout = 1`, the timer firing first and create,
start and log retrieval succeeding, a failing stop call makes Run return exit
code 0 with the logs and no error, not the sentinel -1 (same defect as C1:
line 178 returns the constant 0). -/
theorem Run_timeout_stop_failure_returns_zero :
    ((Run scenarioRuntime scenarioLib "img" "name" [] (timeoutOption 1) []).run
      timerFiresStopFails).val = .returned (0, some [104, 105], none) ∧
    ((Run scenarioRuntime scenarioLib "img" "name" [] (timeoutOption 1) []).run
      timerFiresStopFails).events =
      [Event.newClient true,
        Event.containerCreate (Run.cfg scenarioLib "img" [] (timeoutOption 1))
          (Run.hostConfig scenarioLib (timeoutOption 1) []) "name" true,
        Event.containerStart "c1" true, Event.containerWait "c1",
        Event.select3 1000000000 .timerC,
        Event.containerLogs "c1" "" (some [104, 105]),
        Event.containerStop "c1" 2 false, Event.close] := by
  simp only [Run, bindMounts_eq]
  exact ⟨rfl, rfl⟩

/-- C5 (code defect). With `timeout` set to 0, or to a value that is not an
`int`, the wait is unbounded and the result channel delivers status 3; log
retrieval succeeds and the stop call fails.  Run returns exit code 0 and no
error, not the status code 3 the runtime delivered: line 178 returns the
constant 0 where line 188 returns `exitCode` (the defect of C1 and C4). -/
theorem Run_unbounded_stop_failure_returns_zero :
    ((Run scenarioRuntime scenarioLib "img" "name" [] (timeoutOption 0) []).run stopFails).val =
      .returned (0, some [104, 105], none) ∧
    ((Run scenarioRuntime scenarioLib "img" "name" [] (timeoutOption 0) []).run stopFails).events =
      [Event.newClient true,
        Event.containerCreate (Run.cfg scenarioLib "img" [] (timeoutOption 0))
          (Run.hostConfig scenarioLib (timeoutOption 0) []) "name" true,
        Event.containerStart "c1" true, Event.containerWait "c1",
        Event.select2 (.statusC { Error := none, StatusCode := 3 }),
        Event.containerLogs "c1" "" (some [104, 105]),
        Event.containerStop "c1" 2 false, Event.close] ∧
    ((Run scenarioRuntime scenarioLib "img" "name" [] (timeoutText "5") []).run stopFails).val =
      .returned (0, some [104, 105], none) ∧
    ((Run scenarioRuntime scenarioLib "img" "name" [] (timeoutText "5") []).run stopFails).events =
      [Event.newClient true,
        Event.containerCreate (Run.cfg scenarioLib "img" [] (timeoutText "5"))
          (Run.hostConfig scenarioLib (timeoutText "5") []) "name" true,
        Event.containerStart "c1" true, Event.containerWait "c1",
        Event.select2 (.statusC { Error := none, StatusCode := 3 }),
        Event.containerLogs "c1" "" (some [104, 105]),
        Event.containerStop "c1" 2 false, Event.close] := by
  simp only [Run, bindMounts_eq]
  exact ⟨rfl, rfl, rfl, rfl⟩

/-- A nil error on the error channel passes the `err != nil` check of Run: the
run goes on to log retrieval with the initial exit code -1. -/
theorem Run_nil_wait_error_returns_sentinel :
    ((Run scenarioRuntime scenarioLib "img" "name" [] noOptions []).run nilWaitError).val =
      .returned (-1, some [104, 105], none) ∧
    ((Run scenarioRuntime scenarioLib "img" "name" [] noOptions []).run nilWaitError).events =
      [Event.newClient true,
        Event.containerCreate (Run.cfg scenarioLib "img" [] noOptions)
          (Run.hostConfig scenarioLib noOptions []) "name" true,
        Event.containerStart "c1" true, Event.containerWait "c1",
        Event.select2 (.errC none),
        Event.containerLogs "c1" "" (some [104, 105]),
        Event.containerStop "c1" 2 true, Event.containerRemove "c1" true true,
        Event.close] := by
  simp only [Run, bindMounts_eq]
  exact ⟨rfl, rfl⟩

/-- The unbounded wait of Run.  When the options carry no positive `int`
timeout, Run races no timer; every log retrieval is preceded in the trace by a
yield of the error or result channel, and a wait on which neither yields
blocks Run for ever; and whenever Run returns without error in a run whose
stop call did not fail, the exit code is the status code delivered on the
result channel, or -1 when the error channel yielded a nil error. -/
theorem Run_unbounded_wait {σ : Type} (rt : Runtime σ) (lib : Lib)
    (imageName containerName : String) (cmd : List String) (options : Options)
    (bindPaths : List String) (s : σ)
    (h : ∀ n, options "timeout" = some (.int n) → n ≤ 0) :
    (∀ d arm, Event.select3 d arm ∉
      ((Run rt lib imageName containerName cmd options bindPaths).run s).events) ∧
    (∀ id tail raw, Event.containerLogs id tail raw ∈
        ((Run rt lib imageName containerName cmd options bindPaths).run s).events →
      ∃ pre arm post,
        ((Run rt lib imageName containerName cmd options bindPaths).run s).events =
          pre ++ Event.select2 arm :: post ∧ arm ≠ .never ∧
        ∀ id1 tail1 raw1, Event.containerLogs id1 tail1 raw1 ∉ pre) ∧
    (Event.select2 .never ∈
        ((Run rt lib imageName containerName cmd options bindPaths).run s).events →
      ((Run rt lib imageName containerName cmd options bindPaths).run s).val = .blocked) ∧
    (∀ code out,
      ((Run rt lib imageName containerName cmd options bindPaths).run s).val =
        .returned (code, out, none) →
      (∀ id, Event.containerStop id 2 false ∉
        ((Run rt lib imageName containerName cmd options bindPaths).run s).events) →
      (∃ st, Event.select2 (.statusC st) ∈
          ((Run rt lib imageName containerName cmd options bindPaths).run s).events ∧
        code = st.StatusCode) ∨
      (Event.select2 (.errC none) ∈
          ((Run rt lib imageName containerName cmd options bindPaths).run s).events ∧
        code = -1)) := by
  rcases Run_cases rt lib imageName containerName cmd options bindPaths s with
    ⟨_, hv, he⟩ | ⟨_, hv, he⟩ | ⟨_, _, hv, he⟩ | ⟨id, s1, hv, he⟩
  · simp [hv, he]
  · simp [hv, he]
  · simp [hv, he]
  · rw [hv, he]
    rcases Run.wait_unbounded rt lib id options s1 h with
      ⟨hwv, hwe⟩ | ⟨e, hwv, hwe⟩ | ⟨s2, hwv, hwe⟩ | ⟨st, s2, hwv, hwe⟩
    · simp [hwv, hwe]
    · simp [hwv, hwe]
    · rw [hwv, hwe]
      rcases Run.collect_cases rt lib id (-1) s2 with
        ⟨_, hcv, hce⟩ | ⟨_, hcv, hce⟩ | ⟨_, _, hcv, hce⟩
      all_goals
        rw [hcv, hce]
        refine ⟨by simp, ?_, by simp, ?_⟩
        · intro id1 tail raw _
          exact ⟨[Event.newClient true,
            Event.containerCreate (Run.cfg lib imageName cmd options)
              (Run.hostConfig lib options (pairMounts bindPaths)) containerName true,
            Event.containerStart id true, Event.containerWait id], .errC none, _,
            by simp; rfl, by simp, by simp⟩
        · simp
    · rw [hwv, hwe]
      rcases Run.collect_cases rt lib id st.StatusCode s2 with
        ⟨_, hcv, hce⟩ | ⟨_, hcv, hce⟩ | ⟨_, _, hcv, hce⟩
      all_goals
        rw [hcv, hce]
        refine ⟨by simp, ?_, by simp, ?_⟩
        · intro id1 tail raw _
          exact ⟨[Event.newClient true,
            Event.containerCreate (Run.cfg lib imageName cmd options)
              (Run.hostConfig lib options (pairMounts bindPaths)) containerName true,
            Event.containerStart id true, Event.containerWait id], .statusC st, _,
            by simp; rfl, by simp, by simp⟩
        · simp

/-- The unbounded wait on the healthy run without a timeout option: the
returned exit code 3 is the status code delivered on the result channel. -/
theorem Run_unbounded_wait_witness :
    (∀ n, noOptions "timeout" = some (.int n) → n ≤ 0) ∧
    ((∃ st, Event.select2 (.statusC st) ∈
        ((Run scenarioRuntime scenarioLib "img" "name" [] noOptions []).run healthyRun).events ∧
      (3 : Int) = st.StatusCode) ∨
    (Event.select2 (.errC none) ∈
        ((Run scenarioRuntime scenarioLib "img" "name" [] noOptions []).run healthyRun).events ∧
      (3 : Int) = -1)) := by
  have hopt : ∀ n, noOptions "timeout" = some (.int n) → n ≤ 0 := by
    intro n hn
    simp [noOptions] at hn
  have hev : ((Run scenarioRuntime scenarioLib "img" "name" [] noOptions []).run healthyRun).events =
      [Event.newClient true,
        Event.containerCreate (Run.cfg scenarioLib "img" [] noOptions)
          (Run.hostConfig scenarioLib noOptions []) "name" true,
        Event.containerStart "c1" true, Event.containerWait "c1",
        Event.select2 (.statusC { Error := none, StatusCode := 3 }),
        Event.containerLogs "c1" "" (some [104, 105]),
        Event.containerStop "c1" 2 true, Event.containerRemove "c1" true true,
        Event.close] := by
    simp only [Run, bindMounts_eq]
    rfl
  refine ⟨hopt, (Run_unbounded_wait scenarioRuntime scenarioLib "img" "name" [] noOptions []
    healthyRun hopt).2.2.2 3 (some [104, 105]) Run_healthy ?_⟩
  intro id
  rw [hev]
  simp

/-- C6, as stated, fails: when the error channel yields the error `boom`, Wait
invokes the callback once with exit code 0, the zero value of the response
that was never received, not with -1. -/
theorem Wait_error_passes_zero_exit_code :
    ((Wait scenarioRuntime "c1" (some recordCallback) []).run waitError).val =
      .returned [(0, some "boom", 0)] ∧
    ((Wait scenarioRuntime "c1" (some recordCallback) []).run waitError).events =
      [Event.containerWait "c1", Event.select2 (.errC (some "boom"))] := ⟨rfl, rfl⟩

/-- C6, amended. If the error channel yields an error `e` before the result
channel yields, Wait invokes a non-nil callback exactly once, with exit code 0
(the zero value of the response) and error `e`; with a nil callback Wait
returns at once, issuing no runtime request and leaving the runtime untouched. -/
theorem Wait_error_channel {σ κ : Type} (rt : Runtime σ) (id : String)
    (cb : Int → Option Err → Int → κ → κ) (k : κ) (s : σ) (e : Err)
    (h : Event.select2 (.errC (some e)) ∈ ((Wait rt id (some cb) k).run s).events) :
    (∃ d, ((Wait rt id (some cb) k).run s).val = .returned (cb 0 (some e) d k)) ∧
    ((Wait rt id (none : Option (Int → Option Err → Int → κ → κ)) k).run s).val = .returned k ∧
    ((Wait rt id (none : Option (Int → Option Err → Int → κ → κ)) k).run s).events = [] ∧
    ((Wait rt id (none : Option (Int → Option Err → Int → κ → κ)) k).run s).state = s := by
  refine ⟨?_, rfl, rfl, rfl⟩
  simp only [Wait, Act.bind_run, now_run, containerWait_run, select2_run] at h ⊢
  rcases harm : (rt.select2 (rt.containerWait id (rt.now s).2)).1 with err | st | _
  · simp only [harm, Act.bind_run, now_run, Act.pure_run] at h ⊢
    simp at h
    subst h
    exact ⟨_, rfl⟩
  · simp [harm] at h
  · simp [harm] at h

/-- C6 amended, on the scenario whose error channel yields `boom`. -/
theorem Wait_error_channel_witness :
    Event.select2 (.errC (some "boom")) ∈
      ((Wait scenarioRuntime "c1" (some recordCallback) []).run waitError).events ∧
    ∃ d, ((Wait scenarioRuntime "c1" (some recordCallback) []).run waitError).val =
      .returned (recordCallback 0 (some "boom") d []) :=
  have h : Event.select2 (.errC (some "boom")) ∈
      ((Wait scenarioRuntime "c1" (some recordCallback) []).run waitError).events := by
    rw [waitError_events]
    simp
  ⟨h, (Wait_error_channel scenarioRuntime "c1" recordCallback [] waitError "boom" h).1⟩

/-- C10. For every non-empty slug of word or hyphen characters (ASCII letters,
digits, `_`, `-`) and every non-empty hash of lowercase ASCII letters or
digits, `demoImageName` matches `"demo-" + slug + "." + hash`; it matches the
two names the test expects to match. -/
theorem demoImageName_matches_slug_hash (slug hash : String) (_hs : slug ≠ "")
    (hslug : ∀ c ∈ slug.toList, isWordOrHyphen c = true) (_hh : hash ≠ "")
    (hhash : ∀ c ∈ hash.toList, isLowerOrDigit c = true) :
    Regexp.MatchString demoImageName ("demo-" ++ slug ++ "." ++ hash) = true ∧
    Regexp.MatchString demoImageName
      "demo-linux-amd64-ubuntu-20_04.2vunrmty7ouoyemzpjj77bylyeo" = true ∧
    Regexp.MatchString demoImageName
      "demo-linux-amd64-ubuntu-20_04.2vthdbseqzvwl3r21t2ste1b3gs" = true := by
  refine ⟨?_, by decide, by decide⟩
  rw [Regexp.MatchString, Regexp.search_iff]
  refine ⟨[], ("demo-" ++ slug ++ "." ++ hash).toList, [], by simp, ?_⟩
  rw [matches_demoImageName]
  exact ⟨slug.toList, hash.toList, by simp [String.toList, String.data_append],
    fun c hc => isWordOrHyphen_inRanges c (hslug c hc),
    fun c hc => isLowerOrDigit_inRanges c (hhash c hc)⟩

/-- C10, at the slug `linux-amd64` and the hash `2vun7`. -/
theorem demoImageName_matches_slug_hash_witness :
    ("linux-amd64" ≠ "" ∧ (∀ c ∈ "linux-amd64".toList, isWordOrHyphen c = true)) ∧
    ("2vun7" ≠ "" ∧ (∀ c ∈ "2vun7".toList, isLowerOrDigit c = true)) ∧
    Regexp.MatchString demoImageName ("demo-" ++ "linux-amd64" ++ "." ++ "2vun7") = true :=
  ⟨⟨by decide, by decide⟩, ⟨by decide, by decide⟩,
    (demoImageName_matches_slug_hash "linux-amd64" "2vun7" (by decide) (by decide) (by decide)
      (by decide)).1⟩

set_option maxRecDepth 8000 in
/-- C7, as stated, fails: the tag `app:demo-x.` contains no occurrence of
`demo-<slug>.<hash>` with a non-empty hash, yet `demoImageName` matches it, and
Clean removes an image carrying it once it is older than the validity window. -/
theorem Clean_removes_image_without_hash :
    Regexp.search demoPatternSpec "app:demo-x.".toList = false ∧
    Regexp.MatchString demoImageName "app:demo-x." = true ∧
    ((Clean scenarioRuntime (NewImageCleaner threeDays)).run staleDotImage).events =
      [Event.newClient true, Event.imageList true true, Event.containerList true (some []),
        Event.imageRemove "img1" true true true, Event.close] :=
  ⟨by decide, by decide, rfl⟩

/-- C7, amended. An image whose sole tag contains no occurrence of `demo-`
followed by a possibly empty run of word/hyphen characters and a dot is not
matched by `demoImageName`; the iteration of Clean for it issues no request
and leaves the runtime untouched, whatever its age and containers, and the
whole pass runs exactly as if the image were not in the listing.  The two
names the test expects not to match are of this kind. -/
theorem Clean_ignores_unmatched_tag {σ : Type} (rt : Runtime σ) (i : ImageCleaner)
    (image : ImageSummary) (tag : String) (pre post : List ImageSummary) (s : σ)
    (htag : image.RepoTags = [tag])
    (hno : Regexp.search demoPrefixPattern tag.toList = false) :
    Regexp.MatchString demoImageName tag = false ∧
    (Clean.image rt i image).run s = ⟨(), [], s⟩ ∧
    (Clean.images rt i (pre ++ image :: post)).run s =
      (Clean.images rt i (pre ++ post)).run s ∧
    Regexp.search demoPrefixPattern "demo-linux-amd64-ubuntu-20_04".toList = false ∧
    Regexp.MatchString demoImageName "demo-linux-amd64-ubuntu-20_04" = false ∧
    Regexp.search demoPrefixPattern "demo-linux-amd64-ubuntu-20_0".toList = false ∧
    Regexp.MatchString demoImageName "demo-linux-amd64-ubuntu-20_0" = false := by
  have hm : Regexp.MatchString demoImageName tag = false := by
    rw [Regexp.MatchString, search_demoImageName, hno]
  refine ⟨hm, Clean.image_unmatched rt i image tag s htag hm, ?_, by decide, by decide,
    by decide, by decide⟩
  rw [Clean.images_append, Clean.images_append, Clean.images_cons,
    Clean.image_unmatched rt i image tag _ htag hm]
  simp

/-- C7 amended, at the tag `prod-release-1.0`. -/
theorem Clean_ignores_unmatched_tag_witness :
    Regexp.search demoPrefixPattern "prod-release-1.0".toList = false ∧
    Regexp.MatchString demoImageName "prod-release-1.0" = false ∧
    (Clean.image scenarioRuntime (NewImageCleaner threeDays)
      { ID := "img2", RepoTags := ["prod-release-1.0"], Created := 0 }).run staleDotImage =
      ⟨(), [], staleDotImage⟩ :=
  have h := Clean_ignores_unmatched_tag scenarioRuntime (NewImageCleaner threeDays)
    { ID := "img2", RepoTags := ["prod-release-1.0"], Created := 0 } "prod-release-1.0" [] []
    staleDotImage rfl (by decide)
  ⟨by decide, h.1, h.2.1⟩

set_option maxRecDepth 8000 in
/-- A creation time beyond `MaxInt64 - unixToInternal` wraps around in
`time.Unix`: the instant lies before the clock reading, the difference does not
fit a duration, and `Sub` returns the maximal duration.  The container counts
as older than the window and is removed, and the image after it. -/
theorem Clean_wrapped_creation_time :
    Time.Sub (timeNow 1000000000000000000) (timeUnix 9223372036854775807) = maxDuration ∧
    ((Clean scenarioRuntime (NewImageCleaner threeDays)).run staleImageWrappedContainer).events =
      [Event.newClient true, Event.imageList true true,
        Event.containerList true
          (some
            [{ ID := "c9", ImageID := "img1", State := "exited", Created := 9223372036854775807 }]),
        Event.newClient true, Event.containerRemove "c9" true true, Event.close,
        Event.imageRemove "img1" true true true, Event.close] :=
  ⟨by decide, rfl⟩

/-- C3. For an image with exactly one tag matching the demo pattern, whose age
is at least the validity window, with force-removal enabled and the container
listing succeeding, the iteration of Clean issues the forced, child-pruning
removal of the image if and only if (a) no container referencing it is
running, (b) every stopped container referencing it is older than the window,
its age being `time.Now().Sub(time.Unix(Created, 0))` at the clock reading
taken for it, and (c) the removal of every queued container succeeds: every
referencing container with a non-empty id was successfully force-removed in
the iteration and no removal attempt failed.  When (a) or (b) fails, no
container removal is issued; when both hold, exactly one removal is attempted
for each referencing container with a non-empty id. -/
theorem Clean_eviction_verdict {σ : Type} (rt : Runtime σ) (i : ImageCleaner)
    (image : ImageSummary) (tag : String) (containers : List Container) (s : σ)
    (htag : image.RepoTags = [tag])
    (hmatch : Regexp.MatchString demoImageName tag = true)
    (hforce : i.ForceRemoveContainer = true)
    (hage : i.InvalidDuration ≤ Time.Sub (timeNow (rt.now s).1) (timeUnix image.Created))
    (hlist : (rt.containerList true (rt.now s).2).1 = .ok containers) :
    ((∃ ok, Event.imageRemove image.ID true true ok ∈ ((Clean.image rt i image).run s).events) ↔
      (∀ c ∈ referencing image.ID containers, c.State ≠ "running") ∧
      (∀ p ∈ (stoppedReferencing image.ID containers).zip
          (clockReadings rt (stoppedReferencing image.ID containers).length
            (rt.containerList true (rt.now s).2).2),
        Time.Sub (timeNow p.2) (timeUnix p.1.Created) > i.InvalidDuration) ∧
      (∀ c ∈ referencing image.ID containers, c.ID ≠ "" →
        Event.containerRemove c.ID true true ∈ ((Clean.image rt i image).run s).events) ∧
      (∀ e ∈ ((Clean.image rt i image).run s).events, e.isFailedRemoval = false)) ∧
    (¬ ((∀ c ∈ referencing image.ID containers, c.State ≠ "running") ∧
        (∀ p ∈ (stoppedReferencing image.ID containers).zip
            (clockReadings rt (stoppedReferencing image.ID containers).length
              (rt.containerList true (rt.now s).2).2),
          Time.Sub (timeNow p.2) (timeUnix p.1.Created) > i.InvalidDuration)) →
      ∀ id force ok, Event.containerRemove id force ok ∉
        ((Clean.image rt i image).run s).events) ∧
    ((∀ c ∈ referencing image.ID containers, c.State ≠ "running") →
      (∀ p ∈ (stoppedReferencing image.ID containers).zip
          (clockReadings rt (stoppedReferencing image.ID containers).length
            (rt.containerList true (rt.now s).2).2),
        Time.Sub (timeNow p.2) (timeUnix p.1.Created) > i.InvalidDuration) →
      List.countP Event.isNewClient ((Clean.image rt i image).run s).events =
        List.countP (fun c => decide (c.ID ≠ "")) (referencing image.ID containers)) := by
  obtain ⟨rest, hev, hsteps, hval, hblocked, _, hrem⟩ :=
    hasValidContainers_listed rt i image.ID (rt.now s).2 containers hlist
  have hnorm : ∀ e ∈ rest, ∀ id f p ok, e ≠ Event.imageRemove id f p ok := by
    intro e he id f p ok heq
    have := hsteps e he
    rw [heq] at this
    simp [Event.isRemovalStep] at this
  have hattempts := hasValidContainers_attempts rt i image.ID (rt.now s).2 containers hlist hforce
  rw [Clean.image_matched rt i image tag s htag hmatch (not_lt.mpr hage)]
  refine ⟨?_, ?_, ?_⟩
  · rw [hev]
    cases hv : ((hasValidContainers rt i image.ID).run (rt.now s).2).val
    · obtain ⟨hA, hB, hC⟩ := hval.1 hv
      simp only [if_true, List.cons_append, List.mem_cons, List.mem_append, List.mem_singleton,
        reduceCtorEq, false_or, Event.imageRemove.injEq, true_and, List.not_mem_nil, or_false]
      constructor
      · intro _
        refine ⟨hA, hB, ?_, ?_⟩
        · intro c hc hne
          exact hrem hv hforce c hc hne
        · intro e he
          rcases he with rfl | he | rfl
          · rfl
          · exact hC hforce e he
          · rfl
      · intro _
        exact ⟨_, Or.inr rfl⟩
    · simp only [Bool.true_eq_false, if_false, List.append_nil, List.mem_cons, reduceCtorEq,
        false_or]
      constructor
      · rintro ⟨ok, hmem⟩
        exact absurd rfl (hnorm _ hmem image.ID true true ok)
      · rintro ⟨hA, hB, _, hC⟩
        have hfalse := hval.2 ⟨hA, hB, fun _ e he => hC e (Or.inr he)⟩
        rw [hv] at hfalse
        exact Bool.noConfusion hfalse
  · intro hneg id force ok hmem
    rw [hev] at hmem
    have hrest := hblocked hneg
    subst hrest
    have hv : ((hasValidContainers rt i image.ID).run (rt.now s).2).val = true := by
      cases hv : ((hasValidContainers rt i image.ID).run (rt.now s).2).val
      · exact absurd ⟨(hval.1 hv).1, (hval.1 hv).2.1⟩ hneg
      · rfl
    simp [hv] at hmem
  · intro hA hB
    rw [List.countP_append, hattempts hA hB]
    split <;> simp [List.countP_cons, Event.isNewClient]

set_option maxRecDepth 8000 in
/-- C2, as stated, fails. With `ForceRemoveContainer` false, Clean removes the
stale image `img1` while its stopped container `c9` is never removed; and with
force-removal enabled, a stopped old container with the empty id is skipped by
`Remove` and the image is removed all the same. -/
theorem Clean_removes_image_keeping_container :
    ((Clean scenarioRuntime { InvalidDuration := threeDays, ForceRemoveContainer := false }).run
      staleImageStoppedContainer).events =
      [Event.newClient true, Event.imageList true true,
        Event.containerList true
          (some [{ ID := "c9", ImageID := "img1", State := "exited", Created := 0 }]),
        Event.imageRemove "img1" true true true, Event.close] ∧
    ((Clean scenarioRuntime (NewImageCleaner threeDays)).run staleImageUnnamedContainer).events =
      [Event.newClient true, Event.imageList true true,
        Event.containerList true
          (some [{ ID := "", ImageID := "img1", State := "exited", Created := 0 }]),
        Event.imageRemove "img1" true true true, Event.close] :=
  ⟨rfl, rfl⟩

/-- C2, amended. With `ForceRemoveContainer` true, whenever Clean issues the
removal of an image, the trace before it ends with a successful container
listing followed only by removal steps, among which every listed container
with a non-empty id that references the image was successfully force-removed. -/
theorem Clean_removes_image_after_containers {σ : Type} (rt : Runtime σ) (i : ImageCleaner)
    (s : σ) (hforce : i.ForceRemoveContainer = true) (pre post : List Event) (id : String)
    (force prune ok : Bool)
    (heq : ((Clean rt i).run s).events = pre ++ Event.imageRemove id force prune ok :: post) :
    ∃ before containers after,
      pre = before ++ Event.containerList true (some containers) :: after ∧
      (∀ e ∈ after, e.isRemovalStep = true) ∧
      ∀ c ∈ containers, c.ImageID = id → c.ID ≠ "" →
        Event.containerRemove c.ID true true ∈ after := by
  have hg : guardedRemovals ((Clean rt i).run s).events := by
    rcases Clean_cases rt i s with ⟨_, _, _, he⟩ | ⟨_, _, _, _, he⟩ | ⟨images, _, _, _, he⟩
    · rw [he]
      exact guardedRemovals_of_no_imageRemove _ (by simp [Event.isImageRemove])
    · rw [he]
      exact guardedRemovals_of_no_imageRemove _ (by simp [Event.isImageRemove])
    · rw [he]
      exact guardedRemovals_append _ _
        (guardedRemovals_append _ _
          (guardedRemovals_of_no_imageRemove _ (by simp [Event.isImageRemove]))
          (Clean.images_guarded rt i hforce images _))
        (guardedRemovals_of_no_imageRemove _ (by simp [Event.isImageRemove]))
  exact hg pre id force prune ok post heq

set_option maxRecDepth 8000 in
/-- C2 amended, on the stale image with one stopped old container: the
container `c9` is removed before the image. -/
theorem Clean_removes_image_after_containers_witness :
    (NewImageCleaner threeDays).ForceRemoveContainer = true ∧
    ∃ before containers after,
      [Event.newClient true, Event.imageList true true,
        Event.containerList true
          (some [{ ID := "c9", ImageID := "img1", State := "exited", Created := 0 }]),
        Event.newClient true, Event.containerRemove "c9" true true, Event.close] =
        before ++ Event.containerList true (some containers) :: after ∧
      (∀ e ∈ after, e.isRemovalStep = true) ∧
      ∀ c ∈ containers, c.ImageID = "img1" → c.ID ≠ "" →
        Event.containerRemove c.ID true true ∈ after :=
  ⟨rfl, Clean_removes_image_after_containers scenarioRuntime (NewImageCleaner threeDays)
    staleImageStoppedContainer rfl _ [Event.close] "img1" true true true rfl⟩

set_option maxRecDepth 8000 in
/-- C3, on the stale image with one stopped old container: the container is
removed and the image removal is issued, so both sides of the equivalence hold. -/
theorem Clean_eviction_verdict_witness :
    (Regexp.MatchString demoImageName "demo-a.b1" = true ∧
      (NewImageCleaner threeDays).InvalidDuration ≤
        Time.Sub (timeNow (scenarioRuntime.now staleImageStoppedContainer).1) (timeUnix 0)) ∧
    ((∃ ok, Event.imageRemove "img1" true true ok ∈
        ((Clean.image scenarioRuntime (NewImageCleaner threeDays)
          { ID := "img1", RepoTags := ["demo-a.b1"], Created := 0 }).run
            staleImageStoppedContainer).events) ↔
      (∀ c ∈ referencing "img1"
          [{ ID := "c9", ImageID := "img1", State := "exited", Created := 0 }],
        c.State ≠ "running") ∧
      (∀ p ∈ (stoppedReferencing "img1"
            [{ ID := "c9", ImageID := "img1", State := "exited", Created := 0 }]).zip
          (clockReadings scenarioRuntime (stoppedReferencing "img1"
            [{ ID := "c9", ImageID := "img1", State := "exited", Created := 0 }]).length
            (scenarioRuntime.containerList true
              (scenarioRuntime.now staleImageStoppedContainer).2).2),
        Time.Sub (timeNow p.2) (timeUnix p.1.Created) > (NewImageCleaner threeDays).InvalidDuration) ∧
      (∀ c ∈ referencing "img1"
          [{ ID := "c9", ImageID := "img1", State := "exited", Created := 0 }],
        c.ID ≠ "" → Event.containerRemove c.ID true true ∈
          ((Clean.image scenarioRuntime (NewImageCleaner threeDays)
            { ID := "img1", RepoTags := ["demo-a.b1"], Created := 0 }).run
              staleImageStoppedContainer).events) ∧
      (∀ e ∈ ((Clean.image scenarioRuntime (NewImageCleaner threeDays)
          { ID := "img1", RepoTags := ["demo-a.b1"], Created := 0 }).run
            staleImageStoppedContainer).events, e.isFailedRemoval = false)) ∧
    ((Clean.image scenarioRuntime (NewImageCleaner threeDays)
      { ID := "img1", RepoTags := ["demo-a.b1"], Created := 0 }).run
        staleImageStoppedContainer).events =
      [Event.containerList true
          (some [{ ID := "c9", ImageID := "img1", State := "exited", Created := 0 }]),
        Event.newClient true, Event.containerRemove "c9" true true, Event.close,
        Event.imageRemove "img1" true true true] :=
  ⟨⟨by decide, by decide⟩,
    (Clean_eviction_verdict scenarioRuntime (NewImageCleaner threeDays)
      { ID := "img1", RepoTags := ["demo-a.b1"], Created := 0 } "demo-a.b1"
      [{ ID := "c9", ImageID := "img1", State := "exited", Created := 0 }]
      staleImageStoppedContainer rfl (by decide) rfl (by decide) rfl).1, rfl⟩

/-- C9. Clean returns no error exactly when connecting and listing the images
succeed, whatever the container listings, container removals and image
removals do; and for every image of the listing the trace of Clean contains
the whole iteration for that image, run from the state the earlier iterations
left, so that an image found removable has its forced, child-pruning removal
issued whatever failed before it. -/
theorem Clean_tolerates_partial_failure {σ : Type} (rt : Runtime σ) (i : ImageCleaner) (s : σ) :
    (((Clean rt i).run s).val = none ↔
      ((rt.newClient s).1 = none ∧
        ∃ images, (rt.imageList true (rt.newClient s).2).1 = .ok images)) ∧
    (∀ images pre image post, (rt.newClient s).1 = none →
      (rt.imageList true (rt.newClient s).2).1 = .ok images →
      images = pre ++ image :: post →
      ((Clean rt i).run s).events =
        [Event.newClient true, Event.imageList true true] ++
          ((Clean.images rt i pre).run (rt.imageList true (rt.newClient s).2).2).events ++
          ((Clean.image rt i image).run
            ((Clean.images rt i pre).run (rt.imageList true (rt.newClient s).2).2).state).events ++
          ((Clean.images rt i post).run
            ((Clean.image rt i image).run
              ((Clean.images rt i pre).run
                (rt.imageList true (rt.newClient s).2).2).state).state).events ++
          [Event.close] ∧
      ∀ tag, image.RepoTags = [tag] → Regexp.MatchString demoImageName tag = true →
        ((imageNeedRemove rt i image.ID (timeUnix image.Created)).run
          ((Clean.images rt i pre).run (rt.imageList true (rt.newClient s).2).2).state).val =
            true →
        ∃ ok, Event.imageRemove image.ID true true ok ∈ ((Clean rt i).run s).events) := by
  constructor
  · rcases Clean_cases rt i s with ⟨err, hnc, hv, _⟩ | ⟨err, hnc, hl, hv, _⟩ |
      ⟨images, hnc, hl, hv, _⟩
    · simp [hv, hnc]
    · simp [hv, hnc, hl]
    · simp [hv, hnc, hl]
  · intro images pre image post hnc hl himages
    rcases Clean_cases rt i s with ⟨err, hnc1, _, _⟩ | ⟨err, _, hl1, _, _⟩ |
      ⟨images1, _, hl1, _, he⟩
    · rw [hnc] at hnc1
      cases hnc1
    · rw [hl] at hl1
      cases hl1
    · rw [hl] at hl1
      cases hl1
      have hev : ((Clean rt i).run s).events =
          [Event.newClient true, Event.imageList true true] ++
            ((Clean.images rt i pre).run (rt.imageList true (rt.newClient s).2).2).events ++
            ((Clean.image rt i image).run
              ((Clean.images rt i pre).run
                (rt.imageList true (rt.newClient s).2).2).state).events ++
            ((Clean.images rt i post).run
              ((Clean.image rt i image).run
                ((Clean.images rt i pre).run
                  (rt.imageList true (rt.newClient s).2).2).state).state).events ++
            [Event.close] := by
        rw [he, himages, Clean.images_append, Clean.images_cons]
        simp only [List.append_assoc]
      refine ⟨hev, ?_⟩
      intro tag htag hmatch hneed
      obtain ⟨ok, hmem⟩ := Clean.image_removes rt i image tag _ htag hmatch hneed
      refine ⟨ok, ?_⟩
      rw [hev]
      simp only [List.mem_append]
      exact Or.inl (Or.inl (Or.inr hmem))

set_option maxRecDepth 8000 in
/-- C9, on two stale images whose removals both fail: Clean returns no error,
and the removal of the second image is issued after the first removal failed. -/
theorem Clean_tolerates_partial_failure_witness :
    ((Clean scenarioRuntime (NewImageCleaner threeDays)).run twoStaleImagesRemovalFails).val =
      none ∧
    Event.imageRemove "img1" true true false ∈
      ((Clean scenarioRuntime (NewImageCleaner threeDays)).run
        twoStaleImagesRemovalFails).events ∧
    ∃ ok, Event.imageRemove "img2" true true ok ∈
      ((Clean scenarioRuntime (NewImageCleaner threeDays)).run
        twoStaleImagesRemovalFails).events :=
  have h := Clean_tolerates_partial_failure scenarioRuntime (NewImageCleaner threeDays)
    twoStaleImagesRemovalFails
  ⟨h.1.2 ⟨rfl, _, rfl⟩, by decide,
    (h.2 _ [{ ID := "img1", RepoTags := ["demo-a.b1"], Created := 0 }]
      { ID := "img2", RepoTags := ["demo-c.d2"], Created := 0 } [] rfl rfl rfl).2
      "demo-c.d2" rfl (by decide) rfl⟩

/-- C8, at a sequence of odd length: three paths give one mount and the trailing path is dropped. -/
theorem bindMounts_pairs_positionally_witness :
    ∃ mounts, bindMounts ["/src", "/dst", "/odd"] = some mounts ∧ mounts.length = 1 ∧
      mounts[0]? = some { Type_ := "bind", Source := "/src", Target := "/dst" } := by
  obtain ⟨mounts, h1, h2, h3, _⟩ := bindMounts_pairs_positionally ["/src", "/dst", "/odd"]
  obtain ⟨src, tgt, hs, ht, hm⟩ := h3 0 (by decide)
  simp only [List.getElem?_cons_zero, Option.some.injEq, Nat.mul_zero, Nat.zero_add,
    List.getElem?_cons_succ] at hs ht
  subst hs ht
  exact ⟨mounts, h1, by simpa using h2, hm⟩

/-! ## Image names -/

theorem base26Encode.loop_zero (result : Bytes) : base26Encode.loop 0 result = result := by
  rw [base26Encode.loop]
  simp

theorem base26Encode.loop_pos (x : Nat) (result : Bytes) (h : x ≠ 0) :
    base26Encode.loop x result =
      base26Encode.loop (x / 26) (result ++ [b26Alphabet.getD (x % 26) 0]) := by
  rw [base26Encode.loop]
  have hlen : b26Alphabet.length = 26 := by decide
  have hidx : x % 26 < b26Alphabet.length := by
    rw [hlen]
    exact Nat.mod_lt _ (by decide)
  simp only [h, ne_eq, not_false_eq_true, dite_true, hlen]
  rw [List.getD_eq_getElem _ _ hidx]

/-- The leading bytes of `Sum`'s result are those of its argument, whatever was hashed. -/
theorem sliceTo_Sum (md5 : Bytes → Bytes) (h : Hash) (id : Bytes) (n : Nat)
    (hn : n ≤ id.length) : sliceTo (Hash.Sum md5 h id) n = some (id.take n) := by
  have hlen : n ≤ (id ++ md5 h.written).length := by
    rw [List.length_append]
    omega
  simp only [sliceTo, Hash.Sum, hlen, if_true, List.take_append_of_le_length hn]

/-- The encoding of the ten bytes `0123456789`, least significant digit first. -/
theorem base26Encode_digits : base26Encode (ascii "0123456789") = ascii "dycqkbzubomgzwsff" := by
  simp [ascii, base26Encode, bigSetBytes, base26Encode.loop_pos, base26Encode.loop_zero,
    b26Alphabet]

/-- C11. GetImageName depends only on the first 10 bytes of the id: for every
leading part of the name and every two ids of length at least 10 that agree on
their first 10 bytes, the two names are equal, and equal to the leading part,
a dot and `base26Encode` of those 10 bytes, whatever the digest function is,
because `Sum` appends the digest of the empty input after the id bytes; for
the empty id the result is the empty string. -/
theorem GetImageName_first_ten_bytes (md5 : Bytes → Bytes) (pfx id1 id2 : Bytes)
    (h1 : 10 ≤ id1.length) (h2 : 10 ≤ id2.length) (h : id1.take 10 = id2.take 10) :
    GetImageName md5 pfx id1 = GetImageName md5 pfx id2 ∧
    GetImageName md5 pfx id1 = some (pfx ++ ascii "." ++ base26Encode (id1.take 10)) ∧
    (∀ other : Bytes → Bytes, GetImageName other pfx id1 = GetImageName md5 pfx id1) ∧
    Hash.Sum md5 Hash.New id1 = id1 ++ md5 [] ∧
    GetImageName md5 pfx [] = some [] := by
  have hname : ∀ (digest : Bytes → Bytes) (id : Bytes), 10 ≤ id.length →
      GetImageName digest pfx id = some (pfx ++ ascii "." ++ base26Encode (id.take 10)) := by
    intro digest id hid
    have hpos : id.length > 0 := by omega
    simp only [GetImageName, hpos, if_true, sliceTo_Sum digest Hash.New id 10 hid]
  refine ⟨?_, hname md5 id1 h1, ?_, rfl, ?_⟩
  · rw [hname md5 id1 h1, hname md5 id2 h2, h]
  · intro other
    rw [hname other id1 h1, hname md5 id1 h1]
  · simp [GetImageName]

/-- C11, at the ids `0123456789abc` and `0123456789xyz`: both give the name
`demo-x.dycqkbzubomgzwsff`. -/
theorem GetImageName_first_ten_bytes_witness :
    (10 ≤ (ascii "0123456789abc").length ∧ 10 ≤ (ascii "0123456789xyz").length ∧
      (ascii "0123456789abc").take 10 = (ascii "0123456789xyz").take 10) ∧
    GetImageName scenarioMD5 (ascii "demo-x") (ascii "0123456789abc") =
      GetImageName scenarioMD5 (ascii "demo-x") (ascii "0123456789xyz") ∧
    GetImageName scenarioMD5 (ascii "demo-x") (ascii "0123456789xyz") =
      some (ascii "demo-x.dycqkbzubomgzwsff") := by
  have h := GetImageName_first_ten_bytes scenarioMD5 (ascii "demo-x") (ascii "0123456789abc")
    (ascii "0123456789xyz") (by decide) (by decide) (by decide)
  refine ⟨⟨by decide, by decide, by decide⟩, h.1, ?_⟩
  rw [← h.1, h.2.1]
  have ht : (ascii "0123456789abc").take 10 = ascii "0123456789" := by decide
  rw [ht, base26Encode_digits]
  decide

end Docker
